import Mathlib
/-
Verification of the local data layer of the workout-weight-tracker mobile
app.  The SQLite tables are modelled as lists of typed rows; SQL ORDER BY
is modelled by an insertion sort on the relevant key; REAL weights are
exact rationals; TEXT timestamps are strings compared by code point
(SQLite BINARY collation).  Each query/command of src/database is
embedded as a pure function on the table state, following the SQL
statements it executes.
-/
namespace WWT
/-! ### Code-point comparison on strings (SQLite BINARY collation on TEXT) -/
/-- Lexicographic comparison of character lists by code point. -/
def listCharLe : List Char → List Char → Bool
  | [], _ => true
  | _ :: _, [] => false
  | a :: as, b :: bs =>
    if a.toNat < b.toNat then true
    else if b.toNat < a.toNat then false
    else listCharLe as bs
/-- String comparison as SQLite orders TEXT values (bytewise; on UTF-8
data, bytewise order coincides with code-point order). -/
def strLe (a b : String) : Bool := listCharLe a.data b.data
/-! ### SQL ORDER BY, modelled as an insertion sort on the sort key.
SQL leaves the relative order of ties unspecified; the insertion sort
fixes one particular order consistent with the key, which is a faithful
deterministic model. -/
/-- Insert an element into a list sorted by the boolean relation `le`. -/
def insertSorted (le : α → α → Bool) (a : α) : List α → List α
  | [] => [a]
  | b :: l => if le a b then a :: b :: l else b :: insertSorted le a l
/-- Sort a list by the boolean relation `le` (models SQL ORDER BY). -/
def sortBy (le : α → α → Bool) : List α → List α
  | [] => []
  | a :: l => insertSorted le a (sortBy le l)
/-! ### SQL DISTINCT (keep the first occurrence of each row value) -/
def sqlDistinctAux [DecidableEq α] (seen : List α) : List α → List α
  | [] => []
  | a :: l =>
    if a ∈ seen then sqlDistinctAux seen l else a :: sqlDistinctAux (a :: seen) l
/-- SELECT DISTINCT over a bag of rows: drop later duplicates. -/
def sqlDistinct [DecidableEq α] (l : List α) : List α := sqlDistinctAux [] l
/-! ### Small list facts used to interpret SQL result counts and joins -/

/-! ### Data model (src/database/schema.ts): tables as lists of rows.
TEXT columns are `String`, REAL is `ℚ`, INTEGER is `ℤ`, nullable columns
are `Option`. -/

structure MuscleGroup where
  id : String
  name : String
  display_order : ℤ
deriving DecidableEq

structure Workout where
  id : String
  name : String
  muscle_group_id : String
  is_custom : ℤ
  created_by : Option String
  created_at : String
deriving DecidableEq

structure WeightEntry where
  id : String
  user_id : String
  workout_id : String
  weight : ℚ
  reps : ℤ
  notes : Option String
  recorded_at : String
  created_at : String
deriving DecidableEq

structure Favorite where
  id : String
  user_id : String
  workout_id : String
  created_at : String
deriving DecidableEq

/-- The database state: the four tables the query layer touches. -/
structure DB where
  muscle_groups : List MuscleGroup
  workouts : List Workout
  weight_entries : List WeightEntry
  favorites : List Favorite
deriving DecidableEq

structure WorkoutWithMuscleGroup where
  id : String
  name : String
  muscle_group_id : String
  is_custom : ℤ
  created_by : Option String
  created_at : String
  muscle_group_name : String
deriving DecidableEq

structure RecentWorkoutResult where
  workout_id : String
  workout_name : String
  muscle_group_id : String
  muscle_group_name : String
  last_weight : ℚ
  last_reps : ℤ
  last_recorded_at : String
deriving DecidableEq

/-! ### Utilities (src/database/utils.ts) -/

/-- SQLite LIKE is case-insensitive on ASCII letters only: code points
65..90 compare equal to 97..122. -/
def asciiLowerNat (n : Nat) : Nat := if 65 ≤ n && n ≤ 90 then n + 32 else n

/-- The ASCII-case-folded code points of a string, the key on which
SQLite LIKE compares text. -/
def lowerKey (s : String) : List Nat := s.data.map (fun c => asciiLowerNat c.toNat)

/-- escapeLikePattern: `pattern.replace(/[%_\\]/g, '\\$&')` — prefix each
of `%`, `_`, `\` with the escape character `\`. -/
def escapeLikeChar (c : Char) : List Char :=
  if c = '%' ∨ c = '_' ∨ c = '\\' then ['\\', c] else [c]

def escapeLikePattern (pattern : String) : String :=
  ⟨pattern.data.flatMap escapeLikeChar⟩

/-- SQLite `text LIKE pattern ESCAPE '\'`: `%` matches any run, `_` any
single character, `\c` the literal character `c`; ordinary characters
compare ASCII-case-insensitively.  A trailing lone `\` matches nothing
(never produced by `escapeLikePattern`). -/
def likeMatchList : List Char → List Char → Bool
  | [], t => t.isEmpty
  | c :: p, t =>
    if c = '%' then (t.tails).any (fun u => likeMatchList p u)
    else if c = '_' then !t.isEmpty && likeMatchList p t.tail
    else if c = '\\' then
      match p, t with
      | e :: p', d :: t' => (asciiLowerNat e.toNat == asciiLowerNat d.toNat) && likeMatchList p' t'
      | _, _ => false
    else
      match t with
      | [] => false
      | d :: t' => (asciiLowerNat c.toNat == asciiLowerNat d.toNat) && likeMatchList p t'

def likeMatch (pattern text : String) : Bool := likeMatchList pattern.data text.data

/-- Weight conversion (src/database/utils.ts `convertWeight`), on exact
rationals.  JS `Math.round(v)` is `⌊v + 1/2⌋`; for a fraction `p/q` with
`q > 0` that is `(2p + q) fdiv 2q`. -/
def roundFrac (p q : ℤ) : ℤ := (2 * p + q).fdiv (2 * q)

inductive WUnit
  | lbs
  | kg
deriving DecidableEq

/-- convertWeight: identity when units agree; lbs→kg is
`Math.round(w * 0.453592 * 10) / 10`; kg→lbs is
`Math.round(w * 2.20462 * 10) / 10`.  `w * 0.453592 * 10` is the exact
fraction `(w.num * 453592) / (w.den * 100000)`, likewise for kg→lbs. -/
def convertWeight (weight : ℚ) (fr toUnit : WUnit) : ℚ :=
  if fr = toUnit then weight
  else if fr = WUnit.lbs then
    mkRat (roundFrac (weight.num * 453592) (weight.den * 100000)) 10
  else
    mkRat (roundFrac (weight.num * 220462) (weight.den * 10000)) 10

/-! ### Query layer (src/database/queries.ts) -/

/-- ORDER BY recorded_at DESC on weight entries. -/
def entryRecDescLe (a b : WeightEntry) : Bool := strLe b.recorded_at a.recorded_at

/-- ORDER BY weight DESC on weight entries. -/
def entryWeightDescLe (a b : WeightEntry) : Bool := decide (b.weight ≤ a.weight)

/-- ORDER BY last_recorded_at DESC on recent-workout rows. -/
def recentRowDescLe (a b : RecentWorkoutResult) : Bool :=
  strLe b.last_recorded_at a.last_recorded_at

/-- The correlated subquery of getRecentWorkouts:
`SELECT id FROM weight_entries we2 WHERE we2.workout_id = ? AND
we2.user_id = ? ORDER BY we2.recorded_at DESC LIMIT 1`. -/
def latestEntryId (db : DB) (userId workoutId : String) : Option String :=
  ((sortBy entryRecDescLe
      (db.weight_entries.filter
        (fun e2 => e2.workout_id == workoutId && e2.user_id == userId))).head?).map
    WeightEntry.id

/-- The `we.id IN (subquery)` condition of getRecentWorkouts. -/
def isLatestForWorkout (db : DB) (userId : String) (we : WeightEntry) : Bool :=
  latestEntryId db userId we.workout_id == some we.id

/-- getRecentWorkouts(userId, limit): SELECT DISTINCT over the join of
each latest-per-workout entry with its workout and muscle group, ordered
by recorded_at DESC, truncated to `limit`.  The WHERE clause only
constrains the weight-entry row, so it is applied before the join. -/
def getRecentWorkouts (db : DB) (userId : String) (limit : Nat := 10) :
    List RecentWorkoutResult :=
  let matched := db.weight_entries.filter
    (fun we => we.user_id == userId && isLatestForWorkout db userId we)
  let joined := matched.flatMap (fun we =>
    (db.workouts.filter (fun w => w.id == we.workout_id)).flatMap (fun w =>
      (db.muscle_groups.filter (fun mg => mg.id == w.muscle_group_id)).map (fun mg =>
        { workout_id := w.id, workout_name := w.name, muscle_group_id := mg.id,
          muscle_group_name := mg.name, last_weight := we.weight,
          last_reps := we.reps, last_recorded_at := we.recorded_at })))
  ((sortBy recentRowDescLe (sqlDistinct joined)).take limit)

/-- ORDER BY (CASE WHEN name LIKE startsWithPattern THEN 0 ELSE 1),
name ASC — the search ranking key of searchWorkouts. -/
def searchOrdLe (startsWithPattern : String) (a b : WorkoutWithMuscleGroup) : Bool :=
  let ka : Nat := if likeMatch startsWithPattern a.name then 0 else 1
  let kb : Nat := if likeMatch startsWithPattern b.name then 0 else 1
  decide (ka < kb) || ((ka == kb) && strLe a.name b.name)

/-- searchWorkouts(query, limit): case-insensitive LIKE filter on the
escaped query, joined with muscle groups, ranked starts-with first then
alphabetical, truncated to `limit`. -/
def searchWorkouts (db : DB) (searchQuery : String) (limit : Nat := 20) :
    List WorkoutWithMuscleGroup :=
  let escapedQuery := escapeLikePattern searchQuery
  let pattern := "%" ++ escapedQuery ++ "%"
  let startsWithPattern := escapedQuery ++ "%"
  let joined := db.workouts.flatMap (fun w =>
    (db.muscle_groups.filter (fun mg => mg.id == w.muscle_group_id)).map (fun mg =>
      ({ id := w.id, name := w.name, muscle_group_id := w.muscle_group_id,
         is_custom := w.is_custom, created_by := w.created_by,
         created_at := w.created_at,
         muscle_group_name := mg.name } : WorkoutWithMuscleGroup)))
  let matched := joined.filter (fun r => likeMatch pattern r.name)
  (sortBy (searchOrdLe startsWithPattern) matched).take limit

/-- Input to logEntry; optional fields are absent (`none`) when the
caller does not supply them. -/
structure LogEntryInput where
  userId : String
  workoutId : String
  weight : ℚ
  reps : Option ℤ
  notes : Option String
  recordedAt : Option String

/-- logEntry: `id` models the generateUUID() result and `createdAt` the
getCurrentTimestamp() result.  JS `input.recordedAt || createdAt` and
`input.notes || null` treat the empty string as absent; `input.reps ?? 7`
does not. -/
def logEntry (db : DB) (input : LogEntryInput) (id createdAt : String) :
    DB × WeightEntry :=
  let recordedAt := match input.recordedAt with
    | some s => if s = "" then createdAt else s
    | none => createdAt
  let reps := input.reps.getD 7
  let notes : Option String := match input.notes with
    | some s => if s = "" then none else some s
    | none => none
  let e : WeightEntry :=
    { id := id, user_id := input.userId, workout_id := input.workoutId,
      weight := input.weight, reps := reps, notes := notes,
      recorded_at := recordedAt, created_at := createdAt }
  ({ db with weight_entries := db.weight_entries ++ [e] }, e)

/-- getPersonalRecord(userId, workoutId):
`SELECT ... WHERE user_id = ? AND workout_id = ? ORDER BY weight DESC
LIMIT 1`, null when no row matches. -/
def getPersonalRecord (db : DB) (userId workoutId : String) : Option WeightEntry :=
  (sortBy entryWeightDescLe
    (db.weight_entries.filter
      (fun e => e.user_id == userId && e.workout_id == workoutId))).head?

/-- deleteEntry(entryId, userId):
`DELETE FROM weight_entries WHERE id = ? AND user_id = ?`; returns
`changes > 0`. -/
def deleteEntry (db : DB) (entryId userId : String) : DB × Bool :=
  let remaining := db.weight_entries.filter
    (fun e => !(e.id == entryId && e.user_id == userId))
  ({ db with weight_entries := remaining },
    decide (remaining.length < db.weight_entries.length))

/-- addFavorite(userId, workoutId): INSERT a fresh row; a violation of
UNIQUE(user_id, workout_id) or of the id primary key raises
'UNIQUE constraint failed', which the function catches and converts to
`false`.  `newId` models generateUUID(), `newCreatedAt` models
getCurrentTimestamp(). -/
def addFavorite (db : DB) (userId workoutId newId newCreatedAt : String) :
    DB × Bool :=
  if db.favorites.any
      (fun f => (f.user_id == userId && f.workout_id == workoutId) || f.id == newId) then
    (db, false)
  else
    ({ db with favorites := db.favorites ++
        [{ id := newId, user_id := userId, workout_id := workoutId,
           created_at := newCreatedAt }] }, true)

/-- removeFavorite(userId, workoutId):
`DELETE FROM favorites WHERE user_id = ? AND workout_id = ?`; returns
`changes > 0`. -/
def removeFavorite (db : DB) (userId workoutId : String) : DB × Bool :=
  let remaining := db.favorites.filter
    (fun f => !(f.user_id == userId && f.workout_id == workoutId))
  ({ db with favorites := remaining },
    decide (remaining.length < db.favorites.length))

/-- isFavorite(userId, workoutId): `SELECT 1 ... LIMIT 1` is non-null
exactly when some row matches. -/
def isFavorite (db : DB) (userId workoutId : String) : Bool :=
  db.favorites.any (fun f => f.user_id == userId && f.workout_id == workoutId)

/-- toggleFavorite(userId, workoutId): read isFavorite, then remove or
add; returns the new favorite state. -/
def toggleFavorite (db : DB) (userId workoutId newId newCreatedAt : String) :
    DB × Bool :=
  if isFavorite db userId workoutId then
    ((removeFavorite db userId workoutId).1, false)
  else
    ((addFavorite db userId workoutId newId newCreatedAt).1, true)

/-! ### Seed loader (src/database/seed.ts) -/

/-- The fixed muscle-group reference list with its stable pre-assigned
identifiers (MUSCLE_GROUP_IDS) and display order 1..7. -/
def muscleGroups : List MuscleGroup :=
  [{ id := "mg-chest-001", name := "Chest", display_order := 1 },
   { id := "mg-back-002", name := "Back", display_order := 2 },
   { id := "mg-legs-003", name := "Legs", display_order := 3 },
   { id := "mg-shoulders-004", name := "Shoulders", display_order := 4 },
   { id := "mg-biceps-005", name := "Biceps", display_order := 5 },
   { id := "mg-triceps-006", name := "Triceps", display_order := 6 },
   { id := "mg-core-007", name := "Core", display_order := 7 }]

/-- The built-in workout catalog: (name, muscle_group_id) pairs, in the
order the seed file lists them. -/
def workoutSeeds : List (String × String) :=
  [("Bench Press", "mg-chest-001"),
   ("Incline Dumbbell Press", "mg-chest-001"),
   ("Cable Flyes", "mg-chest-001"),
   ("Dips (Chest)", "mg-chest-001"),
   ("Push-ups", "mg-chest-001"),
   ("Decline Bench Press", "mg-chest-001"),
   ("Pec Deck Machine", "mg-chest-001"),
   ("Dumbbell Flyes", "mg-chest-001"),
   ("Incline Barbell Press", "mg-chest-001"),
   ("Machine Chest Press", "mg-chest-001"),
   ("Lat Pulldown", "mg-back-002"),
   ("Barbell Row", "mg-back-002"),
   ("Seated Cable Row", "mg-back-002"),
   ("Pull-ups", "mg-back-002"),
   ("Deadlift", "mg-back-002"),
   ("T-Bar Row", "mg-back-002"),
   ("Face Pulls", "mg-back-002"),
   ("Dumbbell Row", "mg-back-002"),
   ("Chin-ups", "mg-back-002"),
   ("Rack Pulls", "mg-back-002"),
   ("Squat", "mg-legs-003"),
   ("Leg Press", "mg-legs-003"),
   ("Romanian Deadlift", "mg-legs-003"),
   ("Leg Curl", "mg-legs-003"),
   ("Leg Extension", "mg-legs-003"),
   ("Calf Raises", "mg-legs-003"),
   ("Lunges", "mg-legs-003"),
   ("Hip Thrust", "mg-legs-003"),
   ("Bulgarian Split Squat", "mg-legs-003"),
   ("Hack Squat", "mg-legs-003"),
   ("Overhead Press", "mg-shoulders-004"),
   ("Lateral Raises", "mg-shoulders-004"),
   ("Front Raises", "mg-shoulders-004"),
   ("Rear Delt Fly", "mg-shoulders-004"),
   ("Arnold Press", "mg-shoulders-004"),
   ("Shrugs", "mg-shoulders-004"),
   ("Upright Row", "mg-shoulders-004"),
   ("Cable Lateral Raise", "mg-shoulders-004"),
   ("Barbell Curl", "mg-biceps-005"),
   ("Hammer Curl", "mg-biceps-005"),
   ("Preacher Curl", "mg-biceps-005"),
   ("Incline Dumbbell Curl", "mg-biceps-005"),
   ("Cable Curl", "mg-biceps-005"),
   ("Concentration Curl", "mg-biceps-005"),
   ("EZ Bar Curl", "mg-biceps-005"),
   ("Tricep Pushdown", "mg-triceps-006"),
   ("Skull Crushers", "mg-triceps-006"),
   ("Overhead Tricep Extension", "mg-triceps-006"),
   ("Close-grip Bench Press", "mg-triceps-006"),
   ("Dips (Triceps)", "mg-triceps-006"),
   ("Tricep Kickbacks", "mg-triceps-006"),
   ("Rope Pushdown", "mg-triceps-006"),
   ("Cable Crunch", "mg-core-007"),
   ("Hanging Leg Raise", "mg-core-007"),
   ("Plank", "mg-core-007"),
   ("Russian Twist", "mg-core-007"),
   ("Ab Rollout", "mg-core-007"),
   ("Woodchoppers", "mg-core-007"),
   ("Dead Bug", "mg-core-007")]

/-- seedMuscleGroups(): no-op when `SELECT COUNT(*) FROM muscle_groups`
is positive, otherwise insert the fixed reference list. -/
def seedMuscleGroups (db : DB) : DB :=
  if 0 < db.muscle_groups.length then db
  else { db with muscle_groups := db.muscle_groups ++ muscleGroups }

/-- The rows inserted by the seedWorkouts loop: each seed gets a freshly
generated id (`gen i` models the i-th generateUUID() call), is_custom 0,
created_by NULL, created_at `now` (datetime("now")). -/
def seedWorkoutRows (gen : Nat → String) (now : String) :
    List (String × String) → Nat → List Workout
  | [], _ => []
  | (name, mgid) :: rest, i =>
    { id := gen i, name := name, muscle_group_id := mgid, is_custom := 0,
      created_by := none, created_at := now } :: seedWorkoutRows gen now rest (i + 1)

/-- seedWorkouts(): no-op when
`SELECT COUNT(*) FROM workouts WHERE is_custom = 0` is positive,
otherwise insert the whole built-in catalog. -/
def seedWorkouts (gen : Nat → String) (now : String) (db : DB) : DB :=
  if 0 < (db.workouts.filter (fun w => w.is_custom == 0)).length then db
  else { db with workouts := db.workouts ++ seedWorkoutRows gen now workoutSeeds 0 }

/-- seedDatabase(): seedMuscleGroups then seedWorkouts. -/
def seedDatabase (gen : Nat → String) (now : String) (db : DB) : DB :=
  seedWorkouts gen now (seedMuscleGroups db)

/-- Invoking the seed step once per supply in the list: each invocation
has its own UUID stream and its own clock reading. -/
def seedTimes : List ((Nat → String) × String) → DB → DB
  | [], db => db
  | (gen, now) :: rest, db => seedTimes rest (seedDatabase gen now db)

/-! ### Schema manager (src/database/schema.ts).  The schema state
records which tables exist, which named indexes exist, and the rows of
the schema_version table (`none` while the table does not exist). -/

structure SchemaState where
  usersTable : Bool
  muscleGroupsTable : Bool
  workoutsTable : Bool
  weightEntriesTable : Bool
  favoritesTable : Bool
  indexes : List String
  versionRows : Option (List ℤ)
deriving DecidableEq

/-- SCHEMA_VERSION, the current migration target. -/
def SCHEMA_VERSION : ℤ := 2

/-- CREATE INDEX IF NOT EXISTS. -/
def createIndexIfNotExists (idxs : List String) (name : String) : List String :=
  if name ∈ idxs then idxs else idxs ++ [name]

/-- createIndexes(): the six CREATE INDEX IF NOT EXISTS statements. -/
def createIndexes (idxs : List String) : List String :=
  ["idx_entries_user_workout", "idx_entries_recorded", "idx_workouts_muscle",
   "idx_workouts_name", "idx_entries_user_recorded",
   "idx_favorites_user"].foldl createIndexIfNotExists idxs

/-- createTables(): CREATE TABLE IF NOT EXISTS for the five tables and
schema_version, createIndexes, then INSERT the current SCHEMA_VERSION
when `SELECT version FROM schema_version LIMIT 1` returns no row. -/
def createTables (s : SchemaState) : SchemaState :=
  let s1 : SchemaState :=
    { s with
      usersTable := true
      muscleGroupsTable := true
      workoutsTable := true
      weightEntriesTable := true
      favoritesTable := true }
  let s2 : SchemaState := { s1 with indexes := createIndexes s1.indexes }
  let rows := s2.versionRows.getD []
  let s3 : SchemaState := { s2 with versionRows := some rows }
  match rows with
  | [] => { s3 with versionRows := some [SCHEMA_VERSION] }
  | _ => s3

/-- getSchemaVersion(): `SELECT version FROM schema_version LIMIT 1`,
`?? 0` when the row is absent, and `catch → 0` when the whole table is
absent. -/
def getSchemaVersion (s : SchemaState) : ℤ :=
  match s.versionRows with
  | none => 0
  | some [] => 0
  | some (v :: _) => v

/-- runMigrations(): when the stored version is behind SCHEMA_VERSION,
apply migration 2 (CREATE TABLE IF NOT EXISTS favorites and its index)
and then `UPDATE schema_version SET version = 2`.  The UPDATE throws if
the schema_version table does not exist (it updates every row of the
table, hence no row when the table is empty). -/
def runMigrations (s : SchemaState) : Except String SchemaState :=
  let currentVersion := getSchemaVersion s
  if currentVersion < SCHEMA_VERSION then
    let s1 : SchemaState :=
      if currentVersion < 2 then
        { s with
          favoritesTable := true
          indexes := createIndexIfNotExists s.indexes "idx_favorites_user" }
      else s
    match s1.versionRows with
    | none => Except.error "no such table: schema_version"
    | some rows => Except.ok { s1 with versionRows := some (rows.map (fun _ => SCHEMA_VERSION)) }
  else Except.ok s

/-! ### Sequences of favorite operations (claim C8's "any sequence") -/

/-- The favorite operations the query layer offers. Each add/toggle
carries the id and timestamp its INSERT would generate. -/
inductive FavOp
  | add (userId workoutId newId newCreatedAt : String)
  | remove (userId workoutId : String)
  | toggle (userId workoutId newId newCreatedAt : String)

def applyFavOp (db : DB) : FavOp → DB
  | FavOp.add u w i t => (addFavorite db u w i t).1
  | FavOp.remove u w => (removeFavorite db u w).1
  | FavOp.toggle u w i t => (toggleFavorite db u w i t).1

def applyFavOps (db : DB) : List FavOp → DB
  | [] => db
  | op :: rest => applyFavOps (applyFavOp db op) rest

/-- Number of Favorite rows of a (user, workout) pair. -/
def favPairCount (db : DB) (userId workoutId : String) : Nat :=
  (db.favorites.filter
    (fun f => f.user_id == userId && f.workout_id == workoutId)).length

/-- The UNIQUE(user_id, workout_id) invariant of the favorites table. -/
def FavUnique (db : DB) : Prop :=
  ∀ userId workoutId, favPairCount db userId workoutId ≤ 1

/-! ### Case-folded substring predicates used to state what LIKE does -/

/-- Whether `q` is a prefix of `s` (on case-folded code-point keys). -/
def isPrefKey : List Nat → List Nat → Bool
  | [], _ => true
  | _ :: _, [] => false
  | a :: q, b :: s => (a == b) && isPrefKey q s

/-- Whether `q` occurs as a contiguous sublist of `s`. -/
def isSubKey (q : List Nat) : List Nat → Bool
  | [] => isPrefKey q []
  | b :: s => isPrefKey q (b :: s) || isSubKey q s

/-- Tolerance check on exact rationals: whether `|a - b| ≤ 1/10`,
computed on numerators and denominators. -/
def distLeTenthB (a b : ℚ) : Bool :=
  decide (10 * (a.num * (b.den : ℤ) - b.num * (a.den : ℤ)).natAbs ≤ a.den * b.den)

/-- The three-workout catalog of the spec's search-ordering example. -/
def benchCatalogDB : DB :=
  { muscle_groups := [⟨"mg1", "Chest", 1⟩]
    workouts :=
      [⟨"w1", "Bench Press", "mg1", 0, none, "t0"⟩,
       ⟨"w2", "Incline Bench", "mg1", 0, none, "t0"⟩,
       ⟨"w3", "Cable Crossover", "mg1", 0, none, "t0"⟩]
    weight_entries := []
    favorites := [] }

/-- A small sample database: one muscle group, two workouts, three
entries of one user (two on the first workout, one on the second). -/
def recentSampleDB : DB :=
  { muscle_groups := [⟨"mg1", "Chest", 1⟩]
    workouts :=
      [⟨"w1", "Bench Press", "mg1", 0, none, "t0"⟩,
       ⟨"w2", "Squat", "mg1", 0, none, "t0"⟩]
    weight_entries :=
      [⟨"e1", "u1", "w1", 135, 7, none, "2024-01-01T10:00:00.000Z", "t1"⟩,
       ⟨"e2", "u1", "w1", 145, 5, none, "2024-01-03T10:00:00.000Z", "t2"⟩,
       ⟨"e3", "u1", "w2", 225, 3, none, "2024-01-02T10:00:00.000Z", "t3"⟩]
    favorites := [] }

/-! ### Toolkit lemmas -/

theorem listCharLe_refl (l : List Char) : listCharLe l l = true := by
  induction l with
  | nil => rfl
  | cons a as ih => simp [listCharLe, ih]
theorem listCharLe_total (a b : List Char) :
    listCharLe a b = true ∨ listCharLe b a = true := by
  induction a generalizing b with
  | nil => left; rfl
  | cons x xs ih =>
    cases b with
    | nil => right; rfl
    | cons y ys =>
      rcases Nat.lt_trichotomy x.toNat y.toNat with h | h | h
      · left; simp [listCharLe, h]
      · rcases ih ys with h2 | h2
        · left
          simp [listCharLe, show ¬ x.toNat < y.toNat by omega,
            show ¬ y.toNat < x.toNat by omega, h2]
        · right
          simp [listCharLe, show ¬ x.toNat < y.toNat by omega,
            show ¬ y.toNat < x.toNat by omega, h2]
      · right; simp [listCharLe, h]
theorem listCharLe_trans :
    ∀ (a b c : List Char), listCharLe a b = true → listCharLe b c = true →
      listCharLe a c = true
  | [], _, _, _, _ => rfl
  | _ :: _, [], _, h, _ => by simp [listCharLe] at h
  | _ :: _, _ :: _, [], _, h => by simp [listCharLe] at h
  | x :: xs, y :: ys, z :: zs, h1, h2 => by
    simp only [listCharLe] at h1 h2 ⊢
    rcases Nat.lt_trichotomy x.toNat y.toNat with hxy | hxy | hxy
    · rcases Nat.lt_trichotomy y.toNat z.toNat with hyz | hyz | hyz
      · simp [show x.toNat < z.toNat by omega]
      · simp [show x.toNat < z.toNat by omega]
      · simp [show ¬ y.toNat < z.toNat by omega, hyz] at h2
    · rcases Nat.lt_trichotomy y.toNat z.toNat with hyz | hyz | hyz
      · simp [show x.toNat < z.toNat by omega]
      · simp only [show ¬ x.toNat < y.toNat by omega,
          show ¬ y.toNat < x.toNat by omega, if_false, ite_false] at h1
        simp only [show ¬ y.toNat < z.toNat by omega,
          show ¬ z.toNat < y.toNat by omega, if_false, ite_false] at h2
        simp only [show ¬ x.toNat < z.toNat by omega,
          show ¬ z.toNat < x.toNat by omega, if_false, ite_false]
        exact listCharLe_trans xs ys zs h1 h2
      · simp [show ¬ y.toNat < z.toNat by omega, hyz] at h2
    · simp [show ¬ x.toNat < y.toNat by omega, hxy] at h1
theorem strLe_refl (a : String) : strLe a a = true := listCharLe_refl a.data
theorem strLe_total (a b : String) : strLe a b = true ∨ strLe b a = true :=
  listCharLe_total a.data b.data
theorem strLe_trans {a b c : String} (h1 : strLe a b = true)
    (h2 : strLe b c = true) : strLe a c = true :=
  listCharLe_trans a.data b.data c.data h1 h2
theorem perm_insertSorted (le : α → α → Bool) (a : α) (l : List α) :
    (insertSorted le a l).Perm (a :: l) := by
  induction l with
  | nil => exact List.Perm.refl _
  | cons b l ih =>
    simp only [insertSorted]
    split
    · exact List.Perm.refl _
    · exact (ih.cons b).trans (List.Perm.swap a b l)
theorem perm_sortBy (le : α → α → Bool) (l : List α) : (sortBy le l).Perm l := by
  induction l with
  | nil => exact List.Perm.refl _
  | cons a l ih => exact (perm_insertSorted le a (sortBy le l)).trans (ih.cons a)
theorem mem_sortBy {le : α → α → Bool} {a : α} {l : List α} :
    a ∈ sortBy le l ↔ a ∈ l :=
  (perm_sortBy le l).mem_iff
theorem length_sortBy (le : α → α → Bool) (l : List α) :
    (sortBy le l).length = l.length :=
  (perm_sortBy le l).length_eq
theorem pairwise_insertSorted (le : α → α → Bool)
    (htot : ∀ x y, le x y = true ∨ le y x = true)
    (htrans : ∀ x y z, le x y = true → le y z = true → le x z = true)
    (a : α) (l : List α) (h : l.Pairwise (fun x y => le x y = true)) :
    (insertSorted le a l).Pairwise (fun x y => le x y = true) := by
  induction l with
  | nil => simp [insertSorted]
  | cons b l ih =>
    rw [List.pairwise_cons] at h
    obtain ⟨hb, hl⟩ := h
    simp only [insertSorted]
    split
    · rename_i hab
      rw [List.pairwise_cons]
      refine ⟨fun y hy => ?_, ?_⟩
      · rcases List.mem_cons.mp hy with rfl | hy2
        · exact hab
        · exact htrans a b y hab (hb y hy2)
      · rw [List.pairwise_cons]
        exact ⟨hb, hl⟩
    · rename_i hab
      have hba : le b a = true := by
        rcases htot a b with h2 | h2
        · exact absurd h2 hab
        · exact h2
      rw [List.pairwise_cons]
      refine ⟨fun y hy => ?_, ih hl⟩
      rcases List.mem_cons.mp ((perm_insertSorted le a l).mem_iff.mp hy) with rfl | hy2
      · exact hba
      · exact hb y hy2
theorem pairwise_sortBy (le : α → α → Bool)
    (htot : ∀ x y, le x y = true ∨ le y x = true)
    (htrans : ∀ x y z, le x y = true → le y z = true → le x z = true)
    (l : List α) : (sortBy le l).Pairwise (fun x y => le x y = true) := by
  induction l with
  | nil => simp [sortBy]
  | cons a l ih => exact pairwise_insertSorted le htot htrans a (sortBy le l) ih
/-- The head of a sorted list is a member of the original list and is
maximal for the sort key. -/
theorem head_sortBy_max (le : α → α → Bool)
    (htot : ∀ x y, le x y = true ∨ le y x = true)
    (htrans : ∀ x y z, le x y = true → le y z = true → le x z = true)
    (l : List α) (t : α) (ht : (sortBy le l).head? = some t)
    (hrefl : le t t = true) :
    t ∈ l ∧ ∀ x ∈ l, le t x = true := by
  cases hs : sortBy le l with
  | nil => rw [hs] at ht; cases ht
  | cons u rest =>
    rw [hs] at ht
    have hut : t = u := by simpa using ht.symm
    subst hut
    have hperm : (t :: rest).Perm l := hs ▸ perm_sortBy le l
    refine ⟨hperm.subset (List.mem_cons_self t rest), fun x hx => ?_⟩
    rcases List.mem_cons.mp (hperm.mem_iff.mpr hx) with rfl | hx2
    · exact hrefl
    · have hp := pairwise_sortBy le htot htrans l
      rw [hs, List.pairwise_cons] at hp
      exact hp.1 x hx2
theorem sqlDistinctAux_of_nodup [DecidableEq α] (seen l : List α)
    (h : l.Nodup) (hdisj : ∀ a ∈ l, a ∉ seen) : sqlDistinctAux seen l = l := by
  induction l generalizing seen with
  | nil => rfl
  | cons a l ih =>
    rw [List.nodup_cons] at h
    simp only [sqlDistinctAux, if_neg (hdisj a (List.mem_cons_self a l))]
    refine congrArg (a :: ·) (ih (a :: seen) h.2 fun b hb => ?_)
    intro hmem
    rcases List.mem_cons.mp hmem with rfl | hmem2
    · exact h.1 hb
    · exact hdisj b (List.mem_cons_of_mem a hb) hmem2
theorem sqlDistinct_of_nodup [DecidableEq α] (l : List α) (h : l.Nodup) :
    sqlDistinct l = l :=
  sqlDistinctAux_of_nodup [] l h (fun _ _ => List.not_mem_nil _)
/-- A DELETE/UPDATE statement reports `changes > 0` exactly when some row
matched its WHERE clause. -/
theorem filter_length_lt_iff (p : α → Bool) (l : List α) :
    (l.filter p).length < l.length ↔ ∃ a ∈ l, p a = false := by
  induction l with
  | nil => simp
  | cons a l ih =>
    by_cases h : p a
    · simp [List.filter_cons, h, Nat.succ_lt_succ_iff, ih]
    · simp only [List.filter_cons, h, if_false, Bool.false_eq_true, ite_false]
      constructor
      · intro _
        exact ⟨a, List.mem_cons_self a l, by simpa using h⟩
      · intro _
        exact Nat.lt_succ_of_le (List.length_filter_le p l)
/-- Filtering on a key that occurs exactly once yields that single row
(used to interpret an INNER JOIN on a primary key). -/
theorem filter_eq_singleton_of_key [DecidableEq γ] {l : List β} {f : β → γ}
    (hnd : (l.map f).Nodup) {x : β} (hx : x ∈ l) {k : γ} (hk : f x = k) :
    l.filter (fun y => f y == k) = [x] := by
  induction l with
  | nil => cases hx
  | cons y l ih =>
    rw [List.map_cons, List.nodup_cons] at hnd
    rcases List.mem_cons.mp hx with rfl | hx2
    · have h1 : (f x == k) = true := by simp [hk]
      simp only [List.filter_cons, h1, if_true, ite_true]
      refine congrArg (x :: ·) (List.filter_eq_nil_iff.mpr fun b hb => ?_)
      simp only [beq_iff_eq]
      intro hfb
      exact hnd.1 (hfb.trans hk.symm ▸ List.mem_map_of_mem f hb)
    · have hyk : (f y == k) = false := by
        simp only [beq_eq_false_iff_ne, ne_eq]
        intro he
        exact hnd.1 ((he.trans hk.symm) ▸ List.mem_map_of_mem f hx2)
      simp only [List.filter_cons, hyk, Bool.false_eq_true, if_false, ite_false]
      exact ih hnd.2 hx2
/-- A flatMap each of whose pieces is a singleton is pointwise related to
the original list. -/
theorem forall2_flatMap_singleton {R : α → β → Prop} (F : α → List β) :
    ∀ (l : List α), (∀ x ∈ l, ∃ y, F x = [y] ∧ R x y) →
      List.Forall₂ R l (l.flatMap F)
  | [], _ => by simp
  | x :: l, h => by
    obtain ⟨y, hFy, hR⟩ := h x (List.mem_cons_self x l)
    have ih := forall2_flatMap_singleton F l fun z hz => h z (List.mem_cons_of_mem x hz)
    rw [List.flatMap_cons, hFy, List.singleton_append]
    exact List.Forall₂.cons hR ih
theorem forall2_mem_left {R : α → β → Prop} {l : List α} {m : List β}
    (h : List.Forall₂ R l m) {x : α} (hx : x ∈ l) : ∃ y ∈ m, R x y := by
  induction h with
  | nil => cases hx
  | cons hR _ ih =>
    rcases List.mem_cons.mp hx with rfl | hx2
    · exact ⟨_, List.mem_cons_self _ _, hR⟩
    · obtain ⟨y, hy, hRy⟩ := ih hx2
      exact ⟨y, List.mem_cons_of_mem _ hy, hRy⟩
theorem forall2_mem_right {R : α → β → Prop} {l : List α} {m : List β}
    (h : List.Forall₂ R l m) {y : β} (hy : y ∈ m) : ∃ x ∈ l, R x y := by
  induction h with
  | nil => cases hy
  | cons hR _ ih =>
    rcases List.mem_cons.mp hy with rfl | hy2
    · exact ⟨_, List.mem_cons_self _ _, hR⟩
    · obtain ⟨x, hx, hRx⟩ := ih hy2
      exact ⟨x, List.mem_cons_of_mem _ hx, hRx⟩
theorem map_eq_of_forall2 {R : α → β → Prop} {l : List α} {m : List β}
    (f : α → γ) (g : β → γ) (h : List.Forall₂ R l m)
    (hfg : ∀ x y, R x y → g y = f x) : m.map g = l.map f := by
  induction h with
  | nil => rfl
  | cons hR htail ih => simp [ih, hfg _ _ hR]

/-! ### Claim C1: getRecentWorkouts -/

theorem entryRecDescLe_total (x y : WeightEntry) :
    entryRecDescLe x y = true ∨ entryRecDescLe y x = true :=
  (strLe_total y.recorded_at x.recorded_at).elim Or.inl Or.inr

theorem entryRecDescLe_trans (x y z : WeightEntry)
    (h1 : entryRecDescLe x y = true) (h2 : entryRecDescLe y z = true) :
    entryRecDescLe x z = true :=
  strLe_trans h2 h1

theorem recentRowDescLe_total (x y : RecentWorkoutResult) :
    recentRowDescLe x y = true ∨ recentRowDescLe y x = true :=
  (strLe_total y.last_recorded_at x.last_recorded_at).elim Or.inl Or.inr

theorem recentRowDescLe_trans (x y z : RecentWorkoutResult)
    (h1 : recentRowDescLe x y = true) (h2 : recentRowDescLe y z = true) :
    recentRowDescLe x z = true :=
  strLe_trans h2 h1

/-- The head picked by the LIMIT 1 subquery belongs to the filtered set
and carries its maximal recorded_at. -/
theorem latestEntry_head (db : DB) (uid k : String) (t : WeightEntry)
    (ht : (sortBy entryRecDescLe
      (db.weight_entries.filter
        (fun e2 => e2.workout_id == k && e2.user_id == uid))).head? = some t) :
    t ∈ db.weight_entries.filter
      (fun e2 => e2.workout_id == k && e2.user_id == uid) ∧
    ∀ x ∈ db.weight_entries.filter
      (fun e2 => e2.workout_id == k && e2.user_id == uid),
      strLe x.recorded_at t.recorded_at = true :=
  head_sortBy_max entryRecDescLe entryRecDescLe_total
    (fun x y z => entryRecDescLe_trans x y z) _ t ht (strLe_refl t.recorded_at)

/-- Membership in the WHERE-filtered entries of getRecentWorkouts. -/
theorem mem_recentMatched (db : DB) (uid : String) (we : WeightEntry) :
    we ∈ db.weight_entries.filter
        (fun we => we.user_id == uid && isLatestForWorkout db uid we) ↔
      we ∈ db.weight_entries ∧ we.user_id = uid ∧
        latestEntryId db uid we.workout_id = some we.id := by
  rw [List.mem_filter, Bool.and_eq_true]
  refine and_congr_right fun _ => and_congr (by simp) ?_
  rw [isLatestForWorkout]
  simp

/-- The entry selected as latest for a workout is unique (given unique
entry ids). -/
theorem recentMatched_inj (db : DB) (uid : String)
    (hids : (db.weight_entries.map WeightEntry.id).Nodup)
    (we1 we2 : WeightEntry)
    (h1 : we1 ∈ db.weight_entries ∧ we1.user_id = uid ∧
      latestEntryId db uid we1.workout_id = some we1.id)
    (h2 : we2 ∈ db.weight_entries ∧ we2.user_id = uid ∧
      latestEntryId db uid we2.workout_id = some we2.id)
    (hw : we1.workout_id = we2.workout_id) : we1 = we2 := by
  have heq : we1.id = we2.id := by
    have := h1.2.2
    rw [hw, h2.2.2] at this
    exact (Option.some.inj this).symm
  exact List.inj_on_of_nodup_map hids h1.1 h2.1 heq

/-- Every workout the user logged has a latest entry, which the WHERE
clause keeps and which dominates all the workout's entries. -/
theorem recentMatched_exists (db : DB) (uid : String)
    (e : WeightEntry) (he : e ∈ db.weight_entries) (hu : e.user_id = uid) :
    ∃ t ∈ db.weight_entries.filter
        (fun we => we.user_id == uid && isLatestForWorkout db uid we),
      t.workout_id = e.workout_id := by
  have hel0 : e ∈ db.weight_entries.filter
      (fun e2 => e2.workout_id == e.workout_id && e2.user_id == uid) := by
    rw [List.mem_filter]
    exact ⟨he, by simp [hu]⟩
  have hmem : e ∈ sortBy entryRecDescLe
      (db.weight_entries.filter
        (fun e2 => e2.workout_id == e.workout_id && e2.user_id == uid)) :=
    mem_sortBy.mpr hel0
  cases hs : sortBy entryRecDescLe
      (db.weight_entries.filter
        (fun e2 => e2.workout_id == e.workout_id && e2.user_id == uid)) with
  | nil => rw [hs] at hmem; cases hmem
  | cons t rest =>
    have hh : (sortBy entryRecDescLe
        (db.weight_entries.filter
          (fun e2 => e2.workout_id == e.workout_id && e2.user_id == uid))).head? =
        some t := by rw [hs]; rfl
    obtain ⟨htl0, _⟩ := latestEntry_head db uid e.workout_id t hh
    rw [List.mem_filter] at htl0
    obtain ⟨hte, htp⟩ := htl0
    simp only [Bool.and_eq_true, beq_iff_eq] at htp
    refine ⟨t, ?_, htp.1⟩
    rw [mem_recentMatched]
    refine ⟨hte, htp.2, ?_⟩
    rw [htp.1, latestEntryId, hh]
    rfl

/-- The latest-entry condition of the WHERE clause really picks an entry
whose recorded_at dominates all of the user's entries for that workout. -/
theorem recentMatched_max (db : DB) (uid : String)
    (hids : (db.weight_entries.map WeightEntry.id).Nodup)
    (we : WeightEntry) (hwe : we ∈ db.weight_entries) (hu : we.user_id = uid)
    (hlatest : latestEntryId db uid we.workout_id = some we.id) :
    ∀ e' ∈ db.weight_entries, e'.user_id = uid →
      e'.workout_id = we.workout_id →
      strLe e'.recorded_at we.recorded_at = true := by
  intro e' he' hu' hw'
  rw [latestEntryId] at hlatest
  obtain ⟨t, hh, hid⟩ := Option.map_eq_some'.mp hlatest
  obtain ⟨htl0, hmax⟩ := latestEntry_head db uid we.workout_id t hh
  have htwe : t = we := by
    rw [List.mem_filter] at htl0
    exact List.inj_on_of_nodup_map hids htl0.1 hwe hid
  subst htwe
  refine hmax e' ?_
  rw [List.mem_filter]
  exact ⟨he', by simp [hu', hw']⟩

set_option maxHeartbeats 1000000 in
/-- C1: for a valid database (unique row ids, the user's entries all
referencing existing workouts and muscle groups), getRecentWorkouts
returns one row per distinct workout the user has logged (exactly M rows
when the user's entries span M distinct workouts and M fits in the
limit), each row carrying that workout's most-recent entry by
recorded_at, the rows sorted by that recorded_at descending and
truncated to the limit. -/
theorem getRecentWorkouts_spec (db : DB) (userId : String) (limit : Nat)
    (hids : (db.weight_entries.map WeightEntry.id).Nodup)
    (hwids : (db.workouts.map Workout.id).Nodup)
    (hgids : (db.muscle_groups.map MuscleGroup.id).Nodup)
    (href : ∀ e ∈ db.weight_entries, e.user_id = userId →
      ∃ w ∈ db.workouts, w.id = e.workout_id ∧
        ∃ g ∈ db.muscle_groups, g.id = w.muscle_group_id) :
    ((((db.weight_entries.filter (fun e => e.user_id == userId)).map
        WeightEntry.workout_id).dedup.length ≤ limit) →
      (getRecentWorkouts db userId limit).length =
        ((db.weight_entries.filter (fun e => e.user_id == userId)).map
          WeightEntry.workout_id).dedup.length) ∧
    (getRecentWorkouts db userId limit).length ≤ limit ∧
    ((getRecentWorkouts db userId limit).map
      RecentWorkoutResult.workout_id).Nodup ∧
    List.Pairwise (fun a b => strLe b.last_recorded_at a.last_recorded_at = true)
      (getRecentWorkouts db userId limit) ∧
    (∀ r ∈ getRecentWorkouts db userId limit,
      ∃ e ∈ db.weight_entries, e.user_id = userId ∧ e.workout_id = r.workout_id ∧
        r.last_recorded_at = e.recorded_at ∧ r.last_weight = e.weight ∧
        r.last_reps = e.reps ∧
        ∀ e' ∈ db.weight_entries, e'.user_id = userId →
          e'.workout_id = e.workout_id →
          strLe e'.recorded_at e.recorded_at = true) ∧
    (∀ e ∈ db.weight_entries, e.user_id = userId →
      (((db.weight_entries.filter (fun e => e.user_id == userId)).map
          WeightEntry.workout_id).dedup.length ≤ limit) →
      ∃ r ∈ getRecentWorkouts db userId limit, r.workout_id = e.workout_id) := by
  have hres : getRecentWorkouts db userId limit =
      (sortBy recentRowDescLe (sqlDistinct
        ((db.weight_entries.filter
            (fun we => we.user_id == userId && isLatestForWorkout db userId we)).flatMap
          (fun we =>
            (db.workouts.filter (fun w => w.id == we.workout_id)).flatMap (fun w =>
              (db.muscle_groups.filter (fun mg => mg.id == w.muscle_group_id)).map
                (fun mg =>
                  { workout_id := w.id, workout_name := w.name,
                    muscle_group_id := mg.id, muscle_group_name := mg.name,
                    last_weight := we.weight, last_reps := we.reps,
                    last_recorded_at := we.recorded_at })))))).take limit := rfl
  have hf2 : List.Forall₂ (fun (we : WeightEntry) (r : RecentWorkoutResult) =>
      r.workout_id = we.workout_id ∧ r.last_recorded_at = we.recorded_at ∧
        r.last_weight = we.weight ∧ r.last_reps = we.reps)
      (db.weight_entries.filter
        (fun we => we.user_id == userId && isLatestForWorkout db userId we))
      ((db.weight_entries.filter
          (fun we => we.user_id == userId && isLatestForWorkout db userId we)).flatMap
        (fun we =>
          (db.workouts.filter (fun w => w.id == we.workout_id)).flatMap (fun w =>
            (db.muscle_groups.filter (fun mg => mg.id == w.muscle_group_id)).map
              (fun mg =>
                { workout_id := w.id, workout_name := w.name,
                  muscle_group_id := mg.id, muscle_group_name := mg.name,
                  last_weight := we.weight, last_reps := we.reps,
                  last_recorded_at := we.recorded_at })))) := by
    refine forall2_flatMap_singleton _ _ fun we hwe => ?_
    have hwe' := (mem_recentMatched db userId we).mp hwe
    obtain ⟨hwe1, hwe2, _⟩ := hwe'
    obtain ⟨w, hw, hwid, g, hg, hgid⟩ := href we hwe1 hwe2
    refine ⟨{ workout_id := w.id, workout_name := w.name, muscle_group_id := g.id,
              muscle_group_name := g.name, last_weight := we.weight,
              last_reps := we.reps, last_recorded_at := we.recorded_at },
      ?_, hwid, rfl, rfl, rfl⟩
    rw [filter_eq_singleton_of_key hwids hw hwid]
    simp only [List.flatMap_cons, List.flatMap_nil, List.append_nil]
    rw [filter_eq_singleton_of_key hgids hg hgid]
    rfl
  have hwidmap :
      ((db.weight_entries.filter
          (fun we => we.user_id == userId && isLatestForWorkout db userId we)).flatMap
        (fun we =>
          (db.workouts.filter (fun w => w.id == we.workout_id)).flatMap (fun w =>
            (db.muscle_groups.filter (fun mg => mg.id == w.muscle_group_id)).map
              (fun mg =>
                { workout_id := w.id, workout_name := w.name,
                  muscle_group_id := mg.id, muscle_group_name := mg.name,
                  last_weight := we.weight, last_reps := we.reps,
                  last_recorded_at := we.recorded_at })))).map
          RecentWorkoutResult.workout_id =
        ((db.weight_entries.filter
          (fun we => we.user_id == userId && isLatestForWorkout db userId we)).map
          WeightEntry.workout_id) :=
    map_eq_of_forall2 _ _ hf2 fun x y hR => hR.1
  have hmnodup : (((db.weight_entries.filter
      (fun we => we.user_id == userId && isLatestForWorkout db userId we)).map
      WeightEntry.workout_id)).Nodup := by
    refine List.Nodup.map_on ?_ ((List.Nodup.of_map _ hids).filter _)
    intro x hx y hy hxy
    exact recentMatched_inj db userId hids x y
      ((mem_recentMatched db userId x).mp hx)
      ((mem_recentMatched db userId y).mp hy) hxy
  have hjmap : (((db.weight_entries.filter
      (fun we => we.user_id == userId && isLatestForWorkout db userId we)).flatMap
        (fun we =>
          (db.workouts.filter (fun w => w.id == we.workout_id)).flatMap (fun w =>
            (db.muscle_groups.filter (fun mg => mg.id == w.muscle_group_id)).map
              (fun mg =>
                { workout_id := w.id, workout_name := w.name,
                  muscle_group_id := mg.id, muscle_group_name := mg.name,
                  last_weight := we.weight, last_reps := we.reps,
                  last_recorded_at := we.recorded_at })))).map
      RecentWorkoutResult.workout_id).Nodup := by
    rw [hwidmap]
    exact hmnodup
  have hjnodup := List.Nodup.of_map _ hjmap
  have hdis := sqlDistinct_of_nodup _ hjnodup
  have hsortlen : (sortBy recentRowDescLe (sqlDistinct
      ((db.weight_entries.filter
          (fun we => we.user_id == userId && isLatestForWorkout db userId we)).flatMap
        (fun we =>
          (db.workouts.filter (fun w => w.id == we.workout_id)).flatMap (fun w =>
            (db.muscle_groups.filter (fun mg => mg.id == w.muscle_group_id)).map
              (fun mg =>
                { workout_id := w.id, workout_name := w.name,
                  muscle_group_id := mg.id, muscle_group_name := mg.name,
                  last_weight := we.weight, last_reps := we.reps,
                  last_recorded_at := we.recorded_at })))))).length =
      (db.weight_entries.filter
        (fun we => we.user_id == userId && isLatestForWorkout db userId we)).length := by
    rw [hdis, length_sortBy, ← hf2.length_eq]
  have hcount : (db.weight_entries.filter
      (fun we => we.user_id == userId && isLatestForWorkout db userId we)).length =
      ((db.weight_entries.filter (fun e => e.user_id == userId)).map
        WeightEntry.workout_id).dedup.length := by
    have h1 : ((db.weight_entries.filter
        (fun we => we.user_id == userId && isLatestForWorkout db userId we)).map
          WeightEntry.workout_id).toFinset =
        ((db.weight_entries.filter (fun e => e.user_id == userId)).map
          WeightEntry.workout_id).toFinset := by
      apply Finset.ext
      intro x
      simp only [List.mem_toFinset, List.mem_map]
      constructor
      · rintro ⟨we, hwe, rfl⟩
        have hwe' := (mem_recentMatched db userId we).mp hwe
        refine ⟨we, ?_, rfl⟩
        rw [List.mem_filter]
        exact ⟨hwe'.1, by simp [hwe'.2.1]⟩
      · rintro ⟨e, he, rfl⟩
        rw [List.mem_filter] at he
        have hu : e.user_id = userId := by simpa using he.2
        obtain ⟨t, ht, htw⟩ := recentMatched_exists db userId e he.1 hu
        exact ⟨t, ht, htw⟩
    calc (db.weight_entries.filter
        (fun we => we.user_id == userId && isLatestForWorkout db userId we)).length
        = ((db.weight_entries.filter
            (fun we => we.user_id == userId && isLatestForWorkout db userId we)).map
            WeightEntry.workout_id).length := (List.length_map _ _).symm
      _ = ((db.weight_entries.filter
            (fun we => we.user_id == userId && isLatestForWorkout db userId we)).map
            WeightEntry.workout_id).toFinset.card :=
          (List.toFinset_card_of_nodup hmnodup).symm
      _ = ((db.weight_entries.filter (fun e => e.user_id == userId)).map
            WeightEntry.workout_id).toFinset.card := by rw [h1]
      _ = ((db.weight_entries.filter (fun e => e.user_id == userId)).map
            WeightEntry.workout_id).dedup.length := List.card_toFinset _
  refine ⟨?_, ?_, ?_, ?_, ?_, ?_⟩
  · intro hM
    rw [hres, List.length_take, hsortlen, hcount]
    exact Nat.min_eq_right hM
  · rw [hres]
    exact List.length_take_le _ _
  · rw [hres]
    refine List.Nodup.sublist ((List.take_sublist _ _).map _) ?_
    have hd2 : (List.map RecentWorkoutResult.workout_id (sqlDistinct
        ((db.weight_entries.filter
            (fun we => we.user_id == userId && isLatestForWorkout db userId we)).flatMap
          (fun we =>
            (db.workouts.filter (fun w => w.id == we.workout_id)).flatMap (fun w =>
              (db.muscle_groups.filter (fun mg => mg.id == w.muscle_group_id)).map
                (fun mg =>
                  { workout_id := w.id, workout_name := w.name,
                    muscle_group_id := mg.id, muscle_group_name := mg.name,
                    last_weight := we.weight, last_reps := we.reps,
                    last_recorded_at := we.recorded_at })))))).Nodup := by
      rw [hdis]
      exact hjmap
    exact ((perm_sortBy recentRowDescLe _).map _).symm.nodup hd2
  · rw [hres]
    exact ((pairwise_sortBy recentRowDescLe recentRowDescLe_total
      (fun x y z => recentRowDescLe_trans x y z) _).sublist
      (List.take_sublist _ _))
  · intro r hr
    rw [hres] at hr
    have hr2 := (List.take_sublist _ _).mem hr
    rw [mem_sortBy, hdis] at hr2
    obtain ⟨we, hwem, hR⟩ := forall2_mem_right hf2 hr2
    have hwe' := (mem_recentMatched db userId we).mp hwem
    exact ⟨we, hwe'.1, hwe'.2.1, hR.1.symm, hR.2.1, hR.2.2.1, hR.2.2.2,
      recentMatched_max db userId hids we hwe'.1 hwe'.2.1 hwe'.2.2⟩
  · intro e he hu hM
    obtain ⟨t, ht, htw⟩ := recentMatched_exists db userId e he hu
    obtain ⟨r, hrj, hR⟩ := forall2_mem_left hf2 ht
    refine ⟨r, ?_, by rw [hR.1, htw]⟩
    rw [hres]
    have hlen : (sortBy recentRowDescLe (sqlDistinct
        ((db.weight_entries.filter
            (fun we => we.user_id == userId && isLatestForWorkout db userId we)).flatMap
          (fun we =>
            (db.workouts.filter (fun w => w.id == we.workout_id)).flatMap (fun w =>
              (db.muscle_groups.filter (fun mg => mg.id == w.muscle_group_id)).map
                (fun mg =>
                  { workout_id := w.id, workout_name := w.name,
                    muscle_group_id := mg.id, muscle_group_name := mg.name,
                    last_weight := we.weight, last_reps := we.reps,
                    last_recorded_at := we.recorded_at })))))).length ≤ limit := by
      rw [hsortlen, hcount]
      exact hM
    rw [List.take_of_length_le hlen, mem_sortBy, hdis]
    exact hrj

theorem getRecentWorkouts_spec_witness :
    ((((recentSampleDB.weight_entries.filter (fun e => e.user_id == "u1")).map
        WeightEntry.workout_id).dedup.length ≤ 10) →
      (getRecentWorkouts recentSampleDB "u1" 10).length =
        ((recentSampleDB.weight_entries.filter (fun e => e.user_id == "u1")).map
          WeightEntry.workout_id).dedup.length) ∧
    (getRecentWorkouts recentSampleDB "u1" 10).length ≤ 10 ∧
    ((getRecentWorkouts recentSampleDB "u1" 10).map
      RecentWorkoutResult.workout_id).Nodup ∧
    List.Pairwise (fun a b => strLe b.last_recorded_at a.last_recorded_at = true)
      (getRecentWorkouts recentSampleDB "u1" 10) ∧
    (∀ r ∈ getRecentWorkouts recentSampleDB "u1" 10,
      ∃ e ∈ recentSampleDB.weight_entries, e.user_id = "u1" ∧
        e.workout_id = r.workout_id ∧
        r.last_recorded_at = e.recorded_at ∧ r.last_weight = e.weight ∧
        r.last_reps = e.reps ∧
        ∀ e' ∈ recentSampleDB.weight_entries, e'.user_id = "u1" →
          e'.workout_id = e.workout_id →
          strLe e'.recorded_at e.recorded_at = true) ∧
    (∀ e ∈ recentSampleDB.weight_entries, e.user_id = "u1" →
      (((recentSampleDB.weight_entries.filter (fun e => e.user_id == "u1")).map
          WeightEntry.workout_id).dedup.length ≤ 10) →
      ∃ r ∈ getRecentWorkouts recentSampleDB "u1" 10,
        r.workout_id = e.workout_id) :=
  getRecentWorkouts_spec recentSampleDB "u1" 10 (by decide) (by decide) (by decide)
    (by decide)

/-! ### Claim C8: addFavorite and the per-pair uniqueness invariant -/

theorem addFavorite_preserves_unique (db : DB) (u w i t : String)
    (h : FavUnique db) : FavUnique ((addFavorite db u w i t).1) := by
  intro u' w'
  unfold addFavorite
  split
  · exact h u' w'
  · rename_i hcond
    unfold favPairCount
    simp only [List.filter_append]
    rw [List.length_append]
    by_cases hmatch :
        (fun f : Favorite => f.user_id == u' && f.workout_id == w')
          ⟨i, u, w, t⟩ = true
    · simp only [Bool.and_eq_true, beq_iff_eq] at hmatch
      obtain ⟨hu, hw⟩ := hmatch
      subst hu
      subst hw
      have hzero : (db.favorites.filter
          (fun f => f.user_id == u && f.workout_id == w)).length = 0 := by
        rw [List.length_eq_zero, List.filter_eq_nil_iff]
        intro f hf hpf
        refine hcond ?_
        rw [List.any_eq_true]
        exact ⟨f, hf, by simp_all⟩
      rw [hzero]
      simp
    · have : (List.filter (fun f : Favorite => f.user_id == u' && f.workout_id == w')
          [⟨i, u, w, t⟩]).length = 0 := by
        simp only [List.filter_cons, hmatch]
        simp [hmatch]
      rw [this]
      simpa using h u' w'

theorem removeFavorite_preserves_unique (db : DB) (u w : String)
    (h : FavUnique db) : FavUnique ((removeFavorite db u w).1) := by
  intro u' w'
  refine le_trans ?_ (h u' w')
  exact ((List.filter_sublist db.favorites).filter _).length_le

theorem toggleFavorite_preserves_unique (db : DB) (u w i t : String)
    (h : FavUnique db) : FavUnique ((toggleFavorite db u w i t).1) := by
  unfold toggleFavorite
  split
  · exact removeFavorite_preserves_unique db u w h
  · exact addFavorite_preserves_unique db u w i t h

theorem applyFavOps_preserves_unique (ops : List FavOp) :
    ∀ db : DB, FavUnique db → FavUnique (applyFavOps db ops) := by
  induction ops with
  | nil => intro db h; exact h
  | cons op rest ih =>
    intro db h
    refine ih (applyFavOp db op) ?_
    cases op with
    | add u w i t => exact addFavorite_preserves_unique db u w i t h
    | remove u w => exact removeFavorite_preserves_unique db u w h
    | toggle u w i t => exact toggleFavorite_preserves_unique db u w i t h

/-- C8: addFavorite creates the favorite and returns true when the
(user, workout) pair has none (and the generated id is fresh), returns
false without throwing when the pair already has one — so two successive
calls return true then false — and every sequence of favorite operations
preserves the at-most-one-Favorite-row-per-pair invariant. -/
theorem addFavorite_spec (db : DB) (userId workoutId newId newCreatedAt : String) :
    ((∃ f ∈ db.favorites, f.user_id = userId ∧ f.workout_id = workoutId) →
      addFavorite db userId workoutId newId newCreatedAt = (db, false)) ∧
    ((¬ ∃ f ∈ db.favorites, f.user_id = userId ∧ f.workout_id = workoutId) →
      (∀ f ∈ db.favorites, f.id ≠ newId) →
      (addFavorite db userId workoutId newId newCreatedAt).2 = true ∧
      (addFavorite db userId workoutId newId newCreatedAt).1.favorites =
        db.favorites ++ [⟨newId, userId, workoutId, newCreatedAt⟩] ∧
      (∀ newId2 newCreatedAt2 : String,
        (addFavorite (addFavorite db userId workoutId newId newCreatedAt).1
          userId workoutId newId2 newCreatedAt2).2 = false)) ∧
    (∀ ops : List FavOp, FavUnique db → FavUnique (applyFavOps db ops)) := by
  have hgen : ∀ (db2 : DB) (i2 t2 : String),
      (db2.favorites.any
        (fun f => (f.user_id == userId && f.workout_id == workoutId) ||
          f.id == i2)) = true →
      addFavorite db2 userId workoutId i2 t2 = (db2, false) := by
    intro db2 i2 t2 hcond
    unfold addFavorite
    rw [if_pos hcond]
  refine ⟨?_, ?_, fun ops => applyFavOps_preserves_unique ops db⟩
  · rintro ⟨f, hf, hu, hw⟩
    refine hgen db newId newCreatedAt ?_
    rw [List.any_eq_true]
    exact ⟨f, hf, by simp [hu, hw]⟩
  · intro hno hfresh
    have hcond : (db.favorites.any
        (fun f => (f.user_id == userId && f.workout_id == workoutId) ||
          f.id == newId)) = false := by
      rw [List.any_eq_false]
      intro f hf
      simp only [Bool.or_eq_true, Bool.and_eq_true, beq_iff_eq, not_or]
      refine ⟨fun hc => hno ⟨f, hf, hc.1, hc.2⟩, hfresh f hf⟩
    have h1 : addFavorite db userId workoutId newId newCreatedAt =
        ({ db with favorites := db.favorites ++
          [⟨newId, userId, workoutId, newCreatedAt⟩] }, true) := by
      unfold addFavorite
      rw [if_neg (by simp [hcond])]
    refine ⟨by rw [h1], by rw [h1], ?_⟩
    intro newId2 newCreatedAt2
    have hcond2 : (((addFavorite db userId workoutId newId newCreatedAt).1).favorites.any
        (fun f => (f.user_id == userId && f.workout_id == workoutId) ||
          f.id == newId2)) = true := by
      rw [List.any_eq_true]
      refine ⟨⟨newId, userId, workoutId, newCreatedAt⟩, ?_, by simp⟩
      rw [h1]
      simp
    rw [hgen (addFavorite db userId workoutId newId newCreatedAt).1 newId2
      newCreatedAt2 hcond2]

theorem addFavorite_spec_witness :
    ((∃ f ∈ ([] : List Favorite), f.user_id = "u1" ∧ f.workout_id = "w1") →
      addFavorite ⟨[], [], [], []⟩ "u1" "w1" "f1" "t1" = (⟨[], [], [], []⟩, false)) ∧
    ((¬ ∃ f ∈ ([] : List Favorite), f.user_id = "u1" ∧ f.workout_id = "w1") →
      (∀ f ∈ ([] : List Favorite), f.id ≠ "f1") →
      (addFavorite ⟨[], [], [], []⟩ "u1" "w1" "f1" "t1").2 = true ∧
      (addFavorite ⟨[], [], [], []⟩ "u1" "w1" "f1" "t1").1.favorites =
        [] ++ [⟨"f1", "u1", "w1", "t1"⟩] ∧
      (∀ newId2 newCreatedAt2 : String,
        (addFavorite (addFavorite ⟨[], [], [], []⟩ "u1" "w1" "f1" "t1").1
          "u1" "w1" newId2 newCreatedAt2).2 = false)) ∧
    (∀ ops : List FavOp, FavUnique ⟨[], [], [], []⟩ →
      FavUnique (applyFavOps ⟨[], [], [], []⟩ ops)) :=
  addFavorite_spec ⟨[], [], [], []⟩ "u1" "w1" "f1" "t1"

/-! ### Claim C2: getPersonalRecord -/

theorem entryWeightDescLe_total (x y : WeightEntry) :
    entryWeightDescLe x y = true ∨ entryWeightDescLe y x = true := by
  unfold entryWeightDescLe
  rcases le_total y.weight x.weight with h | h
  · left; exact decide_eq_true h
  · right; exact decide_eq_true h

theorem entryWeightDescLe_trans (x y z : WeightEntry)
    (h1 : entryWeightDescLe x y = true) (h2 : entryWeightDescLe y z = true) :
    entryWeightDescLe x z = true := by
  unfold entryWeightDescLe at *
  exact decide_eq_true (le_trans (of_decide_eq_true h2) (of_decide_eq_true h1))

/-- C2: for a (user, workout) pair with at least one entry,
getPersonalRecord returns an entry of that pair whose weight is maximal
among the pair's entries; for a pair with no entries it returns none
rather than failing. -/
theorem getPersonalRecord_spec (db : DB) (userId workoutId : String) :
    ((∃ e ∈ db.weight_entries, e.user_id = userId ∧ e.workout_id = workoutId) →
      ∃ e, getPersonalRecord db userId workoutId = some e ∧
        e ∈ db.weight_entries ∧ e.user_id = userId ∧ e.workout_id = workoutId ∧
        ∀ e' ∈ db.weight_entries, e'.user_id = userId → e'.workout_id = workoutId →
          e'.weight ≤ e.weight) ∧
    ((¬ ∃ e ∈ db.weight_entries, e.user_id = userId ∧ e.workout_id = workoutId) →
      getPersonalRecord db userId workoutId = none) := by
  constructor
  · rintro ⟨e0, he0, hu0, hw0⟩
    have he0f : e0 ∈ db.weight_entries.filter
        (fun e => e.user_id == userId && e.workout_id == workoutId) := by
      rw [List.mem_filter]
      exact ⟨he0, by simp [hu0, hw0]⟩
    have hmem : e0 ∈ sortBy entryWeightDescLe
        (db.weight_entries.filter
          (fun e => e.user_id == userId && e.workout_id == workoutId)) :=
      mem_sortBy.mpr he0f
    cases hs : sortBy entryWeightDescLe
        (db.weight_entries.filter
          (fun e => e.user_id == userId && e.workout_id == workoutId)) with
    | nil => rw [hs] at hmem; cases hmem
    | cons u rest =>
      have hhead : (sortBy entryWeightDescLe
          (db.weight_entries.filter
            (fun e => e.user_id == userId && e.workout_id == workoutId))).head? =
          some u := by rw [hs]; rfl
      obtain ⟨humem, hmax⟩ := head_sortBy_max entryWeightDescLe
        entryWeightDescLe_total (fun x y z => entryWeightDescLe_trans x y z) _ u
        hhead (by unfold entryWeightDescLe; exact decide_eq_true (le_refl _))
      rw [List.mem_filter] at humem
      obtain ⟨humem1, humem2⟩ := humem
      simp only [Bool.and_eq_true, beq_iff_eq] at humem2
      refine ⟨u, hhead, humem1, humem2.1, humem2.2, ?_⟩
      intro e' he' hu' hw'
      have he'f : e' ∈ db.weight_entries.filter
          (fun e => e.user_id == userId && e.workout_id == workoutId) := by
        rw [List.mem_filter]
        exact ⟨he', by simp [hu', hw']⟩
      have := hmax e' he'f
      unfold entryWeightDescLe at this
      exact of_decide_eq_true this
  · intro hno
    have hf : db.weight_entries.filter
        (fun e => e.user_id == userId && e.workout_id == workoutId) = [] := by
      rw [List.filter_eq_nil_iff]
      intro e he hp
      simp only [Bool.and_eq_true, beq_iff_eq] at hp
      exact hno ⟨e, he, hp.1, hp.2⟩
    unfold getPersonalRecord
    rw [hf]
    rfl

theorem getPersonalRecord_spec_witness :
    ∃ e, getPersonalRecord
        ⟨[], [], [⟨"e1", "u1", "w1", 135, 7, none, "t1", "t1"⟩,
          ⟨"e2", "u1", "w1", 145, 5, none, "t2", "t2"⟩], []⟩ "u1" "w1" = some e ∧
      e ∈ [(⟨"e1", "u1", "w1", 135, 7, none, "t1", "t1"⟩ : WeightEntry),
        ⟨"e2", "u1", "w1", 145, 5, none, "t2", "t2"⟩] ∧
      e.user_id = "u1" ∧ e.workout_id = "w1" ∧
      ∀ e' ∈ [(⟨"e1", "u1", "w1", 135, 7, none, "t1", "t1"⟩ : WeightEntry),
        ⟨"e2", "u1", "w1", 145, 5, none, "t2", "t2"⟩],
        e'.user_id = "u1" → e'.workout_id = "w1" → e'.weight ≤ e.weight :=
  (getPersonalRecord_spec
    ⟨[], [], [⟨"e1", "u1", "w1", 135, 7, none, "t1", "t1"⟩,
      ⟨"e2", "u1", "w1", 145, 5, none, "t2", "t2"⟩], []⟩ "u1" "w1").1
    ⟨⟨"e1", "u1", "w1", 135, 7, none, "t1", "t1"⟩, by simp, rfl, rfl⟩

/-! ### Claim C3: searchWorkouts.  The LIKE patterns built from an
escaped query are first related to plain case-folded prefix/substring
tests. -/

theorem forall2_filter {R : α → β → Prop} {l : List α} {m : List β}
    (h : List.Forall₂ R l m) (p : α → Bool) (q : β → Bool)
    (hpq : ∀ x y, R x y → p x = q y) :
    List.Forall₂ R (l.filter p) (m.filter q) := by
  induction h with
  | nil => exact List.Forall₂.nil
  | @cons x y l' m' hR htail ih =>
    by_cases hp : p x
    · have hq : q y = true := by rw [← hpq _ _ hR]; exact hp
      simp only [List.filter_cons, hp, hq, if_true, ite_true]
      exact List.Forall₂.cons hR ih
    · have hq : q y = false := by rw [← hpq _ _ hR]; simpa using hp
      simp only [List.filter_cons, hp, hq, Bool.false_eq_true, if_false, ite_false]
      exact ih

theorem likeMatch_percent : ∀ (t : List Char), likeMatchList ['%'] t = true
  | [] => rfl
  | c :: t => by
    rw [likeMatchList.eq_def]
    show ((c :: t).tails).any (fun u => likeMatchList [] u) = true
    rw [List.any_eq_true]
    exact ⟨[], (List.mem_tails _ _).mpr List.nil_suffix, rfl⟩

theorem likeMatch_escape_pref :
    ∀ (q s : List Char),
      likeMatchList (q.flatMap escapeLikeChar ++ ['%']) s =
        isPrefKey (q.map (fun c => asciiLowerNat c.toNat))
          (s.map (fun c => asciiLowerNat c.toNat))
  | [], s => by
    simp only [List.flatMap_nil, List.nil_append, likeMatch_percent s,
      List.map_nil, isPrefKey]
  | c :: q', s => by
    rw [List.flatMap_cons]
    by_cases hc : c = '%' ∨ c = '_' ∨ c = '\\'
    · rw [show escapeLikeChar c = ['\\', c] from by simp [escapeLikeChar, hc]]
      rw [show (['\\', c] ++ q'.flatMap escapeLikeChar) ++ ['%'] =
        '\\' :: c :: (q'.flatMap escapeLikeChar ++ ['%']) from by simp]
      rw [likeMatchList.eq_def]
      cases s with
      | nil =>
        show (false : Bool) = _
        simp [isPrefKey]
      | cons d s' =>
        show ((asciiLowerNat c.toNat == asciiLowerNat d.toNat) &&
          likeMatchList (q'.flatMap escapeLikeChar ++ ['%']) s') = _
        rw [likeMatch_escape_pref q' s']
        simp [isPrefKey]
    · push_neg at hc
      obtain ⟨hc1, hc2, hc3⟩ := hc
      rw [show escapeLikeChar c = [c] from by simp [escapeLikeChar, hc1, hc2, hc3]]
      rw [show ([c] ++ q'.flatMap escapeLikeChar) ++ ['%'] =
        c :: (q'.flatMap escapeLikeChar ++ ['%']) from by simp]
      cases s with
      | nil =>
        rw [likeMatchList.eq_def]
        simp [hc1, hc2, hc3, isPrefKey]
      | cons d s' =>
        rw [likeMatchList.eq_def]
        simp only [hc1, hc2, hc3, if_false, ite_false, List.map_cons, isPrefKey]
        rw [likeMatch_escape_pref q' s']

theorem likeMatch_escape_sub (q : List Char) :
    ∀ (s : List Char),
      likeMatchList ('%' :: (q.flatMap escapeLikeChar ++ ['%'])) s =
        isSubKey (q.map (fun c => asciiLowerNat c.toNat))
          (s.map (fun c => asciiLowerNat c.toNat))
  | [] => by
    rw [likeMatchList.eq_def]
    show (likeMatchList (q.flatMap escapeLikeChar ++ ['%']) [] || false) = _
    rw [Bool.or_false, likeMatch_escape_pref q []]
    rfl
  | c :: s' => by
    rw [likeMatchList.eq_def]
    show (((c :: s').tails).any
      (fun u => likeMatchList (q.flatMap escapeLikeChar ++ ['%']) u)) = _
    rw [List.tails_cons, List.any_cons]
    rw [likeMatch_escape_pref q (c :: s')]
    rw [show (s'.tails).any
        (fun u => likeMatchList (q.flatMap escapeLikeChar ++ ['%']) u) =
      likeMatchList ('%' :: (q.flatMap escapeLikeChar ++ ['%'])) s' from by
        rw [likeMatchList.eq_def]
        rfl]
    rw [likeMatch_escape_sub q s']
    simp [isSubKey]

theorem escapeLikePattern_data (q : String) :
    (escapeLikePattern q).data = q.data.flatMap escapeLikeChar := rfl

theorem likeMatch_sub_pattern (q s : String) :
    likeMatch ("%" ++ escapeLikePattern q ++ "%") s =
      isSubKey (lowerKey q) (lowerKey s) := by
  show likeMatchList ("%" ++ escapeLikePattern q ++ "%").data s.data = _
  rw [String.data_append, String.data_append, escapeLikePattern_data]
  rw [show ("%" : String).data = ['%'] from rfl]
  rw [show (['%'] ++ q.data.flatMap escapeLikeChar) ++ ['%'] =
    '%' :: (q.data.flatMap escapeLikeChar ++ ['%']) from by simp]
  exact likeMatch_escape_sub q.data s.data

theorem likeMatch_starts_pattern (q s : String) :
    likeMatch (escapeLikePattern q ++ "%") s =
      isPrefKey (lowerKey q) (lowerKey s) := by
  show likeMatchList (escapeLikePattern q ++ "%").data s.data = _
  rw [String.data_append, escapeLikePattern_data]
  rw [show ("%" : String).data = ['%'] from rfl]
  exact likeMatch_escape_pref q.data s.data

theorem isPrefKey_iff : ∀ (q s : List Nat), isPrefKey q s = true ↔ ∃ t, s = q ++ t
  | [], s => by simp [isPrefKey]
  | a :: q, [] => by simp [isPrefKey]
  | a :: q, b :: s => by
    simp only [isPrefKey, Bool.and_eq_true, beq_iff_eq]
    rw [isPrefKey_iff q s]
    constructor
    · rintro ⟨rfl, t, rfl⟩
      exact ⟨t, rfl⟩
    · rintro ⟨t, ht⟩
      injection ht with h1 h2
      exact ⟨h1.symm, t, h2⟩

theorem isSubKey_iff : ∀ (q s : List Nat), isSubKey q s = true ↔ ∃ u v, s = u ++ q ++ v
  | q, [] => by
    show isPrefKey q [] = true ↔ _
    rw [isPrefKey_iff]
    constructor
    · rintro ⟨t, ht⟩
      exact ⟨[], t, by simpa using ht⟩
    · rintro ⟨u, v, huv⟩
      rw [List.append_assoc] at huv
      rw [eq_comm, List.append_eq_nil] at huv
      obtain ⟨rfl, huv2⟩ := huv
      rw [List.append_eq_nil] at huv2
      exact ⟨v, by simp [huv2.1, huv2.2]⟩
  | q, b :: s => by
    show (isPrefKey q (b :: s) || isSubKey q s) = true ↔ _
    rw [Bool.or_eq_true, isPrefKey_iff, isSubKey_iff q s]
    constructor
    · rintro (⟨t, ht⟩ | ⟨u, v, huv⟩)
      · exact ⟨[], t, by simpa using ht⟩
      · exact ⟨b :: u, v, by simp [huv]⟩
    · rintro ⟨u, v, huv⟩
      cases u with
      | nil => exact Or.inl ⟨v, by simpa using huv⟩
      | cons x u' =>
        refine Or.inr ?_
        injection huv with h1 h2
        exact ⟨u', v, h2⟩

theorem searchOrdLe_total (sw : String) (a b : WorkoutWithMuscleGroup) :
    searchOrdLe sw a b = true ∨ searchOrdLe sw b a = true := by
  rcases strLe_total a.name b.name with h | h <;>
    by_cases h1 : likeMatch sw a.name <;> by_cases h2 : likeMatch sw b.name <;>
      simp [searchOrdLe, h1, h2, h]

theorem searchOrdLe_trans (sw : String) (x y z : WorkoutWithMuscleGroup)
    (h1 : searchOrdLe sw x y = true) (h2 : searchOrdLe sw y z = true) :
    searchOrdLe sw x z = true := by
  by_cases ha : likeMatch sw x.name <;> by_cases hb : likeMatch sw y.name <;>
    by_cases hc : likeMatch sw z.name <;>
      simp [searchOrdLe, ha, hb, hc] at h1 h2 ⊢ <;>
        exact strLe_trans h1 h2

/-- C3: searchWorkouts returns exactly the workouts whose name contains
the query as a case-insensitive substring (the empty query's key is nil,
which every name contains), ordered with the names that start with the
query before the ones that merely contain it and alphabetically inside
each bucket, truncated to the limit; and on the catalog {Bench Press,
Incline Bench, Cable Crossover} the query "Bench" returns Bench Press
before Incline Bench and excludes Cable Crossover. -/
theorem searchWorkouts_spec :
    (∀ (db : DB) (searchQuery : String) (limit : Nat),
      (∀ w ∈ db.workouts, ∃ g ∈ db.muscle_groups, g.id = w.muscle_group_id) →
      (db.muscle_groups.map MuscleGroup.id).Nodup →
      (∀ r ∈ searchWorkouts db searchQuery limit,
        (∃ w ∈ db.workouts, w.id = r.id ∧ w.name = r.name) ∧
        ∃ u v, lowerKey r.name = u ++ lowerKey searchQuery ++ v) ∧
      ((db.workouts.filter
          (fun w => isSubKey (lowerKey searchQuery) (lowerKey w.name))).length ≤
            limit →
        ∀ w ∈ db.workouts, (∃ u v, lowerKey w.name = u ++ lowerKey searchQuery ++ v) →
        ∃ r ∈ searchWorkouts db searchQuery limit, r.id = w.id ∧ r.name = w.name) ∧
      List.Pairwise (fun r1 r2 =>
        ((∃ t, lowerKey r2.name = lowerKey searchQuery ++ t) →
          ∃ t, lowerKey r1.name = lowerKey searchQuery ++ t) ∧
        (((∃ t, lowerKey r1.name = lowerKey searchQuery ++ t) ↔
            (∃ t, lowerKey r2.name = lowerKey searchQuery ++ t)) →
          strLe r1.name r2.name = true)) (searchWorkouts db searchQuery limit) ∧
      (searchWorkouts db searchQuery limit).length ≤ limit) ∧
    (searchWorkouts benchCatalogDB "Bench" 20).map WorkoutWithMuscleGroup.name =
      ["Bench Press", "Incline Bench"] := by
  constructor
  · intro db q limit href hnd
    have hres : searchWorkouts db q limit =
        (sortBy (searchOrdLe (escapeLikePattern q ++ "%"))
          ((db.workouts.flatMap (fun w =>
            (db.muscle_groups.filter (fun mg => mg.id == w.muscle_group_id)).map
              (fun mg =>
                ({ id := w.id, name := w.name, muscle_group_id := w.muscle_group_id,
                   is_custom := w.is_custom, created_by := w.created_by,
                   created_at := w.created_at,
                   muscle_group_name := mg.name } : WorkoutWithMuscleGroup)))).filter
            (fun r => likeMatch ("%" ++ escapeLikePattern q ++ "%") r.name))).take
          limit := rfl
    have hf2 : List.Forall₂ (fun (w : Workout) (r : WorkoutWithMuscleGroup) =>
        r.id = w.id ∧ r.name = w.name) db.workouts
        (db.workouts.flatMap (fun w =>
          (db.muscle_groups.filter (fun mg => mg.id == w.muscle_group_id)).map
            (fun mg =>
              ({ id := w.id, name := w.name, muscle_group_id := w.muscle_group_id,
                 is_custom := w.is_custom, created_by := w.created_by,
                 created_at := w.created_at,
                 muscle_group_name := mg.name } : WorkoutWithMuscleGroup)))) := by
      refine forall2_flatMap_singleton _ db.workouts fun w hw => ?_
      obtain ⟨g, hg, hgid⟩ := href w hw
      rw [filter_eq_singleton_of_key hnd hg hgid]
      exact ⟨_, rfl, rfl, rfl⟩
    have hf2m : List.Forall₂ (fun (w : Workout) (r : WorkoutWithMuscleGroup) =>
        r.id = w.id ∧ r.name = w.name)
        (db.workouts.filter (fun w => likeMatch ("%" ++ escapeLikePattern q ++ "%") w.name))
        ((db.workouts.flatMap (fun w =>
          (db.muscle_groups.filter (fun mg => mg.id == w.muscle_group_id)).map
            (fun mg =>
              ({ id := w.id, name := w.name, muscle_group_id := w.muscle_group_id,
                 is_custom := w.is_custom, created_by := w.created_by,
                 created_at := w.created_at,
                 muscle_group_name := mg.name } : WorkoutWithMuscleGroup)))).filter
          (fun r => likeMatch ("%" ++ escapeLikePattern q ++ "%") r.name)) := by
      refine forall2_filter hf2 _ _ fun w r hR => ?_
      rw [hR.2]
    have hswiff : ∀ (r : WorkoutWithMuscleGroup),
        (∃ t, lowerKey r.name = lowerKey q ++ t) ↔
          likeMatch (escapeLikePattern q ++ "%") r.name = true := by
      intro r
      rw [likeMatch_starts_pattern, isPrefKey_iff]
    refine ⟨?_, ?_, ?_, ?_⟩
    · intro r hr
      rw [hres] at hr
      have hr2 : r ∈ sortBy (searchOrdLe (escapeLikePattern q ++ "%")) _ :=
        (List.take_sublist _ _).mem hr
      rw [mem_sortBy, List.mem_filter] at hr2
      obtain ⟨hrj, hrmatch⟩ := hr2
      rw [likeMatch_sub_pattern, isSubKey_iff] at hrmatch
      obtain ⟨u, v, huv⟩ := hrmatch
      obtain ⟨w, hw, hRw⟩ := forall2_mem_right hf2 hrj
      exact ⟨⟨w, hw, hRw.1.symm, hRw.2.symm⟩, u, v, huv⟩
    · intro hcount w hw hmatch
      have hfeq : db.workouts.filter
          (fun w => isSubKey (lowerKey q) (lowerKey w.name)) =
          db.workouts.filter
            (fun w => likeMatch ("%" ++ escapeLikePattern q ++ "%") w.name) := by
        refine List.filter_congr fun x hx => ?_
        rw [likeMatch_sub_pattern]
      rw [hfeq] at hcount
      have hwf : w ∈ db.workouts.filter
          (fun w => likeMatch ("%" ++ escapeLikePattern q ++ "%") w.name) := by
        rw [List.mem_filter]
        refine ⟨hw, ?_⟩
        rw [likeMatch_sub_pattern, isSubKey_iff]
        obtain ⟨u, v, huv⟩ := hmatch
        exact ⟨u, v, huv⟩
      obtain ⟨r, hrm, hRr⟩ := forall2_mem_left hf2m hwf
      refine ⟨r, ?_, hRr.1, hRr.2⟩
      rw [hres]
      have hlen : (sortBy (searchOrdLe (escapeLikePattern q ++ "%"))
          ((db.workouts.flatMap (fun w =>
            (db.muscle_groups.filter (fun mg => mg.id == w.muscle_group_id)).map
              (fun mg =>
                ({ id := w.id, name := w.name, muscle_group_id := w.muscle_group_id,
                   is_custom := w.is_custom, created_by := w.created_by,
                   created_at := w.created_at,
                   muscle_group_name := mg.name } : WorkoutWithMuscleGroup)))).filter
            (fun r => likeMatch ("%" ++ escapeLikePattern q ++ "%") r.name))).length ≤
          limit := by
        rw [length_sortBy, ← hf2m.length_eq]
        exact hcount
      rw [List.take_of_length_le hlen, mem_sortBy]
      exact hrm
    · rw [hres]
      refine List.Pairwise.imp ?_
        ((pairwise_sortBy _ (searchOrdLe_total _) (searchOrdLe_trans _) _).sublist
          (List.take_sublist _ _))
      intro r1 r2 h
      by_cases m1 : likeMatch (escapeLikePattern q ++ "%") r1.name <;>
        by_cases m2 : likeMatch (escapeLikePattern q ++ "%") r2.name
      · refine ⟨fun _ => (hswiff r1).mpr m1, fun _ => ?_⟩
        simpa [searchOrdLe, m1, m2] using h
      · refine ⟨fun hsw2 => absurd ((hswiff r2).mp hsw2) (by simpa using m2),
          fun hiff => absurd ((hswiff r2).mp (hiff.mp ((hswiff r1).mpr m1)))
            (by simpa using m2)⟩
      · simp [searchOrdLe, m1, m2] at h
      · refine ⟨fun hsw2 => absurd ((hswiff r2).mp hsw2) (by simpa using m2),
          fun _ => ?_⟩
        simpa [searchOrdLe, m1, m2] using h
    · rw [hres]
      exact List.length_take_le _ _
  · set_option maxRecDepth 4000 in decide

theorem searchWorkouts_spec_witness :
    (∀ r ∈ searchWorkouts benchCatalogDB "Bench" 20,
      (∃ w ∈ benchCatalogDB.workouts, w.id = r.id ∧ w.name = r.name) ∧
      ∃ u v, lowerKey r.name = u ++ lowerKey "Bench" ++ v) ∧
    ((benchCatalogDB.workouts.filter
        (fun w => isSubKey (lowerKey "Bench") (lowerKey w.name))).length ≤ 20 →
      ∀ w ∈ benchCatalogDB.workouts,
        (∃ u v, lowerKey w.name = u ++ lowerKey "Bench" ++ v) →
        ∃ r ∈ searchWorkouts benchCatalogDB "Bench" 20,
          r.id = w.id ∧ r.name = w.name) ∧
    List.Pairwise (fun r1 r2 =>
      ((∃ t, lowerKey r2.name = lowerKey "Bench" ++ t) →
        ∃ t, lowerKey r1.name = lowerKey "Bench" ++ t) ∧
      (((∃ t, lowerKey r1.name = lowerKey "Bench" ++ t) ↔
          (∃ t, lowerKey r2.name = lowerKey "Bench" ++ t)) →
        strLe r1.name r2.name = true)) (searchWorkouts benchCatalogDB "Bench" 20) ∧
    (searchWorkouts benchCatalogDB "Bench" 20).length ≤ 20 :=
  searchWorkouts_spec.1 benchCatalogDB "Bench" 20 (by decide) (by decide)

/-! ### Claim C6: convertWeight round trip -/

theorem distLeTenthB_iff (a b : ℚ) : distLeTenthB a b = true ↔ |a - b| ≤ 1/10 := by
  rw [distLeTenthB, decide_eq_true_iff]
  have hda : ((a.den : ℚ)) ≠ 0 := Nat.cast_ne_zero.mpr a.den_nz
  have hdb : ((b.den : ℚ)) ≠ 0 := Nat.cast_ne_zero.mpr b.den_nz
  have ha : (a.num : ℚ) = a * (a.den : ℚ) := by
    have h := Rat.num_div_den a
    rw [div_eq_iff hda] at h
    exact h
  have hb : (b.num : ℚ) = b * (b.den : ℚ) := by
    have h := Rat.num_div_den b
    rw [div_eq_iff hdb] at h
    exact h
  have hDpos : (0 : ℚ) < (a.den : ℚ) * (b.den : ℚ) := by
    have h1 : 0 < a.den := a.pos
    have h2 : 0 < b.den := b.pos
    exact_mod_cast Nat.mul_pos h1 h2
  have key : a - b =
      ((a.num * (b.den : ℤ) - b.num * (a.den : ℤ) : ℤ) : ℚ) /
        ((a.den : ℚ) * (b.den : ℚ)) := by
    push_cast
    field_simp
    rw [ha, hb]
    ring
  rw [key, abs_div, abs_of_pos hDpos,
    div_le_div_iff₀ hDpos (by norm_num : (0 : ℚ) < 10)]
  constructor
  · intro h
    have h2 : ((10 * (a.num * (b.den : ℤ) - b.num * (a.den : ℤ)).natAbs : ℕ) : ℚ) ≤
        ((a.den * b.den : ℕ) : ℚ) := by exact_mod_cast h
    push_cast [Int.cast_natAbs, Int.cast_abs] at h2 ⊢
    linarith
  · intro h
    have h2 : ((10 * (a.num * (b.den : ℤ) - b.num * (a.den : ℤ)).natAbs : ℕ) : ℚ) ≤
        ((a.den * b.den : ℕ) : ℚ) := by
      push_cast [Int.cast_natAbs, Int.cast_abs] at h ⊢
      linarith
    exact_mod_cast h2

/-- C6 counterexample: at x = 0.55 lbs the lbs→kg→lbs round trip gives
0.4, which is 0.15 away from x — more than the claimed 0.1 tolerance, so
the tolerance does not hold for every value. -/
theorem convertWeight_roundtrip_counterexample :
    convertWeight (mkRat 11 20) WUnit.lbs WUnit.kg = mkRat 1 5 ∧
    convertWeight (mkRat 1 5) WUnit.kg WUnit.lbs = mkRat 2 5 ∧
    ¬ (|convertWeight (convertWeight (mkRat 11 20) WUnit.lbs WUnit.kg) WUnit.kg
        WUnit.lbs - mkRat 11 20| ≤ 1/10) := by
  refine ⟨by decide, by decide, ?_⟩
  intro h
  rw [← distLeTenthB_iff] at h
  exact absurd h (by decide)

/-- C6 (amended): convertWeight(x, u, u) = x exactly for either unit,
and the lbs→kg→lbs round trip stays within 0.1 of x for every
whole-pound weight x up to 1000 lbs; for fractional inputs the round
trip can drift by more than 0.1 (see the counterexample at 0.55). -/
theorem convertWeight_roundtrip_amended :
    (∀ (w : ℚ) (u : WUnit), convertWeight w u u = w) ∧
    (∀ n : ℕ, n ≤ 1000 →
      |convertWeight (convertWeight (n : ℚ) WUnit.lbs WUnit.kg) WUnit.kg
        WUnit.lbs - (n : ℚ)| ≤ 1/10) := by
  constructor
  · intro w u
    simp [convertWeight]
  · have key : ∀ n : ℕ, n ≤ 1000 →
        distLeTenthB (convertWeight (convertWeight (n : ℚ) WUnit.lbs WUnit.kg)
          WUnit.kg WUnit.lbs) (n : ℚ) = true := by
      set_option maxRecDepth 16000 in
      set_option maxHeartbeats 4000000 in
      decide
    intro n hn
    have h := key n hn
    rwa [distLeTenthB_iff] at h

theorem convertWeight_roundtrip_amended_witness :
    convertWeight (150 : ℚ) WUnit.lbs WUnit.lbs = 150 ∧
    ((150 : ℕ) ≤ 1000 ∧
      |convertWeight (convertWeight ((150 : ℕ) : ℚ) WUnit.lbs WUnit.kg) WUnit.kg
        WUnit.lbs - ((150 : ℕ) : ℚ)| ≤ 1/10) :=
  ⟨convertWeight_roundtrip_amended.1 150 WUnit.lbs,
    by decide, convertWeight_roundtrip_amended.2 150 (by decide)⟩

/-! ### Claim C9: logEntry -/

/-- C9: logEntry uses the freshly generated id and the current timestamp
for created_at; recorded_at defaults to created_at when not supplied;
reps defaults to 7 when not supplied; the weight is stored exactly as
given; and the returned entry is exactly the row appended to the
weight_entries table, the other tables untouched. -/
theorem logEntry_spec (db : DB) (input : LogEntryInput) (id createdAt : String) :
    (logEntry db input id createdAt).2.id = id ∧
    (logEntry db input id createdAt).2.created_at = createdAt ∧
    (input.recordedAt = none →
      (logEntry db input id createdAt).2.recorded_at =
        (logEntry db input id createdAt).2.created_at) ∧
    (input.reps = none → (logEntry db input id createdAt).2.reps = 7) ∧
    (logEntry db input id createdAt).2.weight = input.weight ∧
    (logEntry db input id createdAt).2.user_id = input.userId ∧
    (logEntry db input id createdAt).2.workout_id = input.workoutId ∧
    (logEntry db input id createdAt).1.weight_entries =
      db.weight_entries ++ [(logEntry db input id createdAt).2] ∧
    (logEntry db input id createdAt).1.workouts = db.workouts ∧
    (logEntry db input id createdAt).1.muscle_groups = db.muscle_groups ∧
    (logEntry db input id createdAt).1.favorites = db.favorites := by
  refine ⟨rfl, rfl, ?_, ?_, rfl, rfl, rfl, rfl, rfl, rfl, rfl⟩
  · intro h
    simp [logEntry, h]
  · intro h
    simp [logEntry, h]

theorem logEntry_spec_witness :
    (logEntry ⟨[], [], [], []⟩
        ⟨"u1", "w1", 135, none, none, none⟩ "e1" "2024-01-02T03:04:05.000Z").2.id = "e1" ∧
    (logEntry ⟨[], [], [], []⟩
        ⟨"u1", "w1", 135, none, none, none⟩ "e1" "2024-01-02T03:04:05.000Z").2.created_at =
      "2024-01-02T03:04:05.000Z" ∧
    ((none : Option String) = none →
      (logEntry ⟨[], [], [], []⟩
          ⟨"u1", "w1", 135, none, none, none⟩ "e1" "2024-01-02T03:04:05.000Z").2.recorded_at =
        (logEntry ⟨[], [], [], []⟩
            ⟨"u1", "w1", 135, none, none, none⟩ "e1" "2024-01-02T03:04:05.000Z").2.created_at) ∧
    ((none : Option ℤ) = none →
      (logEntry ⟨[], [], [], []⟩
          ⟨"u1", "w1", 135, none, none, none⟩ "e1" "2024-01-02T03:04:05.000Z").2.reps = 7) ∧
    (logEntry ⟨[], [], [], []⟩
        ⟨"u1", "w1", 135, none, none, none⟩ "e1" "2024-01-02T03:04:05.000Z").2.weight = 135 ∧
    (logEntry ⟨[], [], [], []⟩
        ⟨"u1", "w1", 135, none, none, none⟩ "e1" "2024-01-02T03:04:05.000Z").2.user_id = "u1" ∧
    (logEntry ⟨[], [], [], []⟩
        ⟨"u1", "w1", 135, none, none, none⟩ "e1" "2024-01-02T03:04:05.000Z").2.workout_id = "w1" ∧
    (logEntry ⟨[], [], [], []⟩
        ⟨"u1", "w1", 135, none, none, none⟩ "e1" "2024-01-02T03:04:05.000Z").1.weight_entries =
      [] ++ [(logEntry ⟨[], [], [], []⟩
          ⟨"u1", "w1", 135, none, none, none⟩ "e1" "2024-01-02T03:04:05.000Z").2] ∧
    (logEntry ⟨[], [], [], []⟩
        ⟨"u1", "w1", 135, none, none, none⟩ "e1" "2024-01-02T03:04:05.000Z").1.workouts = [] ∧
    (logEntry ⟨[], [], [], []⟩
        ⟨"u1", "w1", 135, none, none, none⟩ "e1" "2024-01-02T03:04:05.000Z").1.muscle_groups = [] ∧
    (logEntry ⟨[], [], [], []⟩
        ⟨"u1", "w1", 135, none, none, none⟩ "e1" "2024-01-02T03:04:05.000Z").1.favorites = [] :=
  logEntry_spec ⟨[], [], [], []⟩ ⟨"u1", "w1", 135, none, none, none⟩ "e1"
    "2024-01-02T03:04:05.000Z"

/-! ### Claim C7: deleteEntry -/

/-- C7: deleteEntry removes exactly the weight-entry rows whose id and
owner match, returns true exactly when a row was removed, and on an
unknown id or an entry owned by another user returns false with the
whole table (including the targeted row) left intact; the other tables
are never touched. -/
theorem deleteEntry_spec (db : DB) (entryId userId : String) :
    ((deleteEntry db entryId userId).2 = true ↔
      ∃ e ∈ db.weight_entries, e.id = entryId ∧ e.user_id = userId) ∧
    ((¬ ∃ e ∈ db.weight_entries, e.id = entryId ∧ e.user_id = userId) →
      (deleteEntry db entryId userId).1.weight_entries = db.weight_entries) ∧
    (∀ e ∈ db.weight_entries, ¬(e.id = entryId ∧ e.user_id = userId) →
      e ∈ (deleteEntry db entryId userId).1.weight_entries) ∧
    (∀ e ∈ db.weight_entries, e.id = entryId → e.user_id = userId →
      e ∉ (deleteEntry db entryId userId).1.weight_entries) ∧
    (∀ e ∈ (deleteEntry db entryId userId).1.weight_entries, e ∈ db.weight_entries) ∧
    (deleteEntry db entryId userId).1.workouts = db.workouts ∧
    (deleteEntry db entryId userId).1.muscle_groups = db.muscle_groups ∧
    (deleteEntry db entryId userId).1.favorites = db.favorites := by
  refine ⟨?_, ?_, ?_, ?_, ?_, rfl, rfl, rfl⟩
  · rw [show (deleteEntry db entryId userId).2 =
      decide ((db.weight_entries.filter
        (fun e => !(e.id == entryId && e.user_id == userId))).length <
          db.weight_entries.length) from rfl]
    rw [decide_eq_true_iff, filter_length_lt_iff]
    simp
  · intro h
    rw [show (deleteEntry db entryId userId).1.weight_entries =
      db.weight_entries.filter
        (fun e => !(e.id == entryId && e.user_id == userId)) from rfl]
    rw [List.filter_eq_self]
    intro e he
    simp only [Bool.not_eq_eq_eq_not, Bool.not_true, Bool.and_eq_false_iff,
      beq_eq_false_iff_ne, ne_eq]
    by_contra hc
    push_neg at hc
    exact h ⟨e, he, hc.1, hc.2⟩
  · intro e he hne
    rw [show (deleteEntry db entryId userId).1.weight_entries =
      db.weight_entries.filter
        (fun e => !(e.id == entryId && e.user_id == userId)) from rfl]
    rw [List.mem_filter]
    refine ⟨he, ?_⟩
    simp only [Bool.not_eq_eq_eq_not, Bool.not_true, Bool.and_eq_false_iff,
      beq_eq_false_iff_ne, ne_eq]
    by_contra hc
    push_neg at hc
    exact hne ⟨hc.1, hc.2⟩
  · intro e he h1 h2
    rw [show (deleteEntry db entryId userId).1.weight_entries =
      db.weight_entries.filter
        (fun e => !(e.id == entryId && e.user_id == userId)) from rfl]
    rw [List.mem_filter]
    rintro ⟨-, hpred⟩
    simp [h1, h2] at hpred
  · intro e he
    rw [show (deleteEntry db entryId userId).1.weight_entries =
      db.weight_entries.filter
        (fun e => !(e.id == entryId && e.user_id == userId)) from rfl] at he
    exact (List.mem_filter.mp he).1

theorem deleteEntry_spec_witness :
    ((deleteEntry ⟨[], [],
        [⟨"e1", "userA", "w1", 135, 7, none, "t1", "t1"⟩], []⟩ "e1" "userB").2 = true ↔
      ∃ e ∈ [(⟨"e1", "userA", "w1", 135, 7, none, "t1", "t1"⟩ : WeightEntry)],
        e.id = "e1" ∧ e.user_id = "userB") ∧
    ((¬ ∃ e ∈ [(⟨"e1", "userA", "w1", 135, 7, none, "t1", "t1"⟩ : WeightEntry)],
        e.id = "e1" ∧ e.user_id = "userB") →
      (deleteEntry ⟨[], [],
        [⟨"e1", "userA", "w1", 135, 7, none, "t1", "t1"⟩], []⟩ "e1" "userB").1.weight_entries =
        [⟨"e1", "userA", "w1", 135, 7, none, "t1", "t1"⟩]) ∧
    (∀ e ∈ [(⟨"e1", "userA", "w1", 135, 7, none, "t1", "t1"⟩ : WeightEntry)],
      ¬(e.id = "e1" ∧ e.user_id = "userB") →
      e ∈ (deleteEntry ⟨[], [],
        [⟨"e1", "userA", "w1", 135, 7, none, "t1", "t1"⟩], []⟩ "e1" "userB").1.weight_entries) ∧
    (∀ e ∈ [(⟨"e1", "userA", "w1", 135, 7, none, "t1", "t1"⟩ : WeightEntry)],
      e.id = "e1" → e.user_id = "userB" →
      e ∉ (deleteEntry ⟨[], [],
        [⟨"e1", "userA", "w1", 135, 7, none, "t1", "t1"⟩], []⟩ "e1" "userB").1.weight_entries) ∧
    (∀ e ∈ (deleteEntry ⟨[], [],
        [⟨"e1", "userA", "w1", 135, 7, none, "t1", "t1"⟩], []⟩ "e1" "userB").1.weight_entries,
      e ∈ [(⟨"e1", "userA", "w1", 135, 7, none, "t1", "t1"⟩ : WeightEntry)]) ∧
    (deleteEntry ⟨[], [],
      [⟨"e1", "userA", "w1", 135, 7, none, "t1", "t1"⟩], []⟩ "e1" "userB").1.workouts = [] ∧
    (deleteEntry ⟨[], [],
      [⟨"e1", "userA", "w1", 135, 7, none, "t1", "t1"⟩], []⟩ "e1" "userB").1.muscle_groups = [] ∧
    (deleteEntry ⟨[], [],
      [⟨"e1", "userA", "w1", 135, 7, none, "t1", "t1"⟩], []⟩ "e1" "userB").1.favorites = [] :=
  deleteEntry_spec ⟨[], [], [⟨"e1", "userA", "w1", 135, 7, none, "t1", "t1"⟩], []⟩
    "e1" "userB"

/-! ### Claim C10: createTables writes the current version on a fresh
schema_version table, so an immediately following runMigrations is a
no-op. -/

/-- C10: when the schema_version table is empty or absent (in particular
on a fresh empty database), createTables inserts the target version 2
into it, so runMigrations right afterwards reads version 2 and returns
the state unchanged (no DDL, no version write). -/
theorem createTables_then_runMigrations (s : SchemaState)
    (h : s.versionRows = none ∨ s.versionRows = some []) :
    (createTables s).versionRows = some [SCHEMA_VERSION] ∧
    getSchemaVersion (createTables s) = 2 ∧
    runMigrations (createTables s) = Except.ok (createTables s) := by
  have hv : (createTables s).versionRows = some [SCHEMA_VERSION] := by
    rcases h with h | h <;> simp [createTables, h]
  refine ⟨hv, ?_, ?_⟩
  · simp [getSchemaVersion, hv, SCHEMA_VERSION]
  · simp [runMigrations, getSchemaVersion, hv, SCHEMA_VERSION]

/-! ### Claim C4: seed idempotence -/

theorem seedMuscleGroups_noop (db : DB) (h : db.muscle_groups ≠ []) :
    seedMuscleGroups db = db := by
  simp [seedMuscleGroups, List.length_pos.mpr h]

theorem seedWorkouts_noop (db : DB) (h : ∃ w ∈ db.workouts, w.is_custom = 0)
    (gen : Nat → String) (now : String) : seedWorkouts gen now db = db := by
  obtain ⟨w, hw, hc⟩ := h
  have hmem : w ∈ db.workouts.filter (fun w => w.is_custom == 0) := by
    rw [List.mem_filter]
    exact ⟨hw, by simp [hc]⟩
  simp [seedWorkouts, List.length_pos.mpr (List.ne_nil_of_mem hmem)]

theorem seedWorkoutRows_proj (gen : Nat → String) (now : String) :
    ∀ (seeds : List (String × String)) (i : Nat),
      (seedWorkoutRows gen now seeds i).map
        (fun w => (w.name, w.muscle_group_id, w.is_custom, w.created_by)) =
        seeds.map (fun p => (p.1, p.2, (0 : ℤ), (none : Option String)))
  | [], _ => rfl
  | (n, m) :: rest, i => by
    simp only [seedWorkoutRows, List.map_cons]
    rw [seedWorkoutRows_proj gen now rest (i + 1)]

theorem seedWorkoutRows_custom (gen : Nat → String) (now : String) :
    ∀ (seeds : List (String × String)) (i : Nat),
      ∀ w ∈ seedWorkoutRows gen now seeds i, w.is_custom = 0
  | [], _, w, hw => by cases hw
  | (n, m) :: rest, i, w, hw => by
    rcases List.mem_cons.mp hw with rfl | hw2
    · rfl
    · exact seedWorkoutRows_custom gen now rest (i + 1) w hw2

/-- A database already carrying the seed output absorbs any further
seedDatabase invocation. -/
theorem seedTimes_of_seeded (supplies : List ((Nat → String) × String)) (db : DB)
    (hmg : db.muscle_groups ≠ [])
    (hwk : ∃ w ∈ db.workouts, w.is_custom = 0) :
    seedTimes supplies db = db := by
  induction supplies with
  | nil => rfl
  | cons p rest ih =>
    obtain ⟨gen, now⟩ := p
    show seedTimes rest (seedDatabase gen now db) = db
    rw [show seedDatabase gen now db =
      seedWorkouts gen now (seedMuscleGroups db) from rfl]
    rw [seedMuscleGroups_noop db hmg, seedWorkouts_noop db hwk gen now]
    exact ih

/-- C4: invoking the seed step N ≥ 1 times on an initially empty
database yields the same state as invoking it once: exactly the 7 fixed
muscle groups (stable ids, display order 1..7) and exactly one copy of
the built-in catalog (is_custom 0, created_by NULL); seedMuscleGroups is
a no-op once any muscle-group row exists, and seedWorkouts is a no-op
once any non-custom workout row exists. -/
theorem seedDatabase_spec :
    (∀ (db : DB) (gen : Nat → String) (now : String)
        (rest : List ((Nat → String) × String)),
      db.muscle_groups = [] → db.workouts = [] →
      seedTimes ((gen, now) :: rest) db = seedDatabase gen now db ∧
      (seedDatabase gen now db).muscle_groups = muscleGroups ∧
      (seedDatabase gen now db).workouts.map
          (fun w => (w.name, w.muscle_group_id, w.is_custom, w.created_by)) =
        workoutSeeds.map (fun p => (p.1, p.2, (0 : ℤ), (none : Option String)))) ∧
    muscleGroups.map MuscleGroup.name =
      ["Chest", "Back", "Legs", "Shoulders", "Biceps", "Triceps", "Core"] ∧
    muscleGroups.map MuscleGroup.display_order = [1, 2, 3, 4, 5, 6, 7] ∧
    muscleGroups.map MuscleGroup.id =
      ["mg-chest-001", "mg-back-002", "mg-legs-003", "mg-shoulders-004",
       "mg-biceps-005", "mg-triceps-006", "mg-core-007"] ∧
    muscleGroups.length = 7 ∧
    (∀ db : DB, db.muscle_groups ≠ [] → seedMuscleGroups db = db) ∧
    (∀ db : DB, (∃ w ∈ db.workouts, w.is_custom = 0) →
      ∀ (gen : Nat → String) (now : String), seedWorkouts gen now db = db) := by
  refine ⟨?_, rfl, rfl, rfl, rfl, seedMuscleGroups_noop, seedWorkouts_noop⟩
  intro db gen now rest hmg hwk
  have h1 : seedDatabase gen now db =
      { db with
        muscle_groups := muscleGroups
        workouts := seedWorkoutRows gen now workoutSeeds 0 } := by
    simp [seedDatabase, seedWorkouts, seedMuscleGroups, hmg, hwk]
  refine ⟨?_, ?_, ?_⟩
  · show seedTimes rest (seedDatabase gen now db) = seedDatabase gen now db
    refine seedTimes_of_seeded rest (seedDatabase gen now db) ?_ ?_
    · rw [h1]
      simp [muscleGroups]
    · rw [h1]
      refine ⟨(seedWorkoutRows gen now workoutSeeds 0).head (by simp [workoutSeeds, seedWorkoutRows]), ?_, ?_⟩
      · exact List.head_mem _
      · exact seedWorkoutRows_custom gen now workoutSeeds 0 _ (List.head_mem _)
  · rw [h1]
  · rw [h1]
    exact seedWorkoutRows_proj gen now workoutSeeds 0

theorem seedDatabase_spec_witness :
    seedTimes [((fun i => toString i), "now1"), ((fun i => toString (i + 100)), "now2")]
        ⟨[], [], [], []⟩ =
      seedDatabase (fun i => toString i) "now1" ⟨[], [], [], []⟩ ∧
    (seedDatabase (fun i => toString i) "now1" ⟨[], [], [], []⟩).muscle_groups =
      muscleGroups ∧
    (seedDatabase (fun i => toString i) "now1" ⟨[], [], [], []⟩).workouts.map
        (fun w => (w.name, w.muscle_group_id, w.is_custom, w.created_by)) =
      workoutSeeds.map (fun p => (p.1, p.2, (0 : ℤ), (none : Option String))) :=
  seedDatabase_spec.1 ⟨[], [], [], []⟩ (fun i => toString i) "now1"
    [((fun i => toString (i + 100)), "now2")] rfl rfl

/-! ### Claim C5: runMigrations idempotence and monotonicity -/

theorem createIndexIfNotExists_mem (idxs : List String) (n : String) :
    n ∈ createIndexIfNotExists idxs n := by
  by_cases h : n ∈ idxs <;> simp [createIndexIfNotExists, h]

theorem createIndexIfNotExists_idem (idxs : List String) (n : String) :
    createIndexIfNotExists (createIndexIfNotExists idxs n) n =
      createIndexIfNotExists idxs n := by
  rw [show createIndexIfNotExists (createIndexIfNotExists idxs n) n =
    if n ∈ createIndexIfNotExists idxs n then createIndexIfNotExists idxs n
    else createIndexIfNotExists idxs n ++ [n] from rfl]
  rw [if_pos (createIndexIfNotExists_mem idxs n)]

/-- C5: runMigrations is idempotent and monotonic: from stored version 0
(the schema_version table exists) a second run returns the first run's
state unchanged; from stored version 1 it applies exactly the version-2
delta (favorites table, its index, and the version write); and a
successful run never decreases the stored version. -/
theorem runMigrations_spec :
    (∀ (s : SchemaState) (rows : List ℤ), s.versionRows = some rows →
      getSchemaVersion s = 0 →
      ∃ s1, runMigrations s = Except.ok s1 ∧ runMigrations s1 = Except.ok s1) ∧
    (∀ (s : SchemaState) (rows : List ℤ), s.versionRows = some rows →
      getSchemaVersion s = 1 →
      runMigrations s = Except.ok
        { s with
          favoritesTable := true
          indexes := createIndexIfNotExists s.indexes "idx_favorites_user"
          versionRows := some (rows.map (fun _ => SCHEMA_VERSION)) }) ∧
    (∀ (s s1 : SchemaState), runMigrations s = Except.ok s1 →
      getSchemaVersion s ≤ getSchemaVersion s1) := by
  refine ⟨?_, ?_, ?_⟩
  · intro s rows hv h0
    cases rows with
    | nil =>
      refine ⟨{ s with
        favoritesTable := true
        indexes := createIndexIfNotExists s.indexes "idx_favorites_user"
        versionRows := some ([] : List ℤ) }, ?_, ?_⟩
      · simp [runMigrations, h0, hv, SCHEMA_VERSION]
      · simp [runMigrations, getSchemaVersion, SCHEMA_VERSION,
          createIndexIfNotExists_idem]
    | cons v tl =>
      have hv0 : v = 0 := by simpa [getSchemaVersion, hv] using h0
      subst hv0
      refine ⟨{ s with
        favoritesTable := true
        indexes := createIndexIfNotExists s.indexes "idx_favorites_user"
        versionRows := some (((0 : ℤ) :: tl).map (fun _ => SCHEMA_VERSION)) }, ?_, ?_⟩
      · simp [runMigrations, h0, hv, SCHEMA_VERSION]
      · simp [runMigrations, getSchemaVersion, SCHEMA_VERSION]
  · intro s rows hv h1
    cases rows with
    | nil => simp [getSchemaVersion, hv] at h1
    | cons v tl =>
      have hv1 : v = 1 := by simpa [getSchemaVersion, hv] using h1
      subst hv1
      simp [runMigrations, getSchemaVersion, hv, SCHEMA_VERSION]
  · intro s s1 hok
    cases hv : s.versionRows with
    | none =>
      simp [runMigrations, getSchemaVersion, hv, SCHEMA_VERSION] at hok
    | some rows =>
      cases rows with
      | nil =>
        simp only [runMigrations, getSchemaVersion, hv, SCHEMA_VERSION] at hok
        norm_num at hok
        rw [← hok]
        simp [getSchemaVersion, hv]
      | cons v tl =>
        by_cases hlt : v < 2
        · simp only [runMigrations, getSchemaVersion, hv, SCHEMA_VERSION,
            if_pos hlt] at hok
          obtain rfl := Except.ok.inj hok
          simp [getSchemaVersion, hv]
          omega
        · simp only [runMigrations, getSchemaVersion, hv, SCHEMA_VERSION,
            if_neg hlt] at hok
          obtain rfl := Except.ok.inj hok
          exact le_refl _

theorem runMigrations_spec_witness :
    runMigrations ⟨true, true, true, true, false, ["idx_workouts_name"], some [1]⟩ =
      Except.ok
        { (⟨true, true, true, true, false, ["idx_workouts_name"],
            some [1]⟩ : SchemaState) with
          favoritesTable := true
          indexes := createIndexIfNotExists ["idx_workouts_name"] "idx_favorites_user"
          versionRows := some (([1] : List ℤ).map (fun _ => SCHEMA_VERSION)) } :=
  runMigrations_spec.2.1
    ⟨true, true, true, true, false, ["idx_workouts_name"], some [1]⟩ [1] rfl rfl

theorem createTables_then_runMigrations_witness :
    (createTables ⟨false, false, false, false, false, [], none⟩).versionRows =
      some [SCHEMA_VERSION] ∧
    getSchemaVersion (createTables ⟨false, false, false, false, false, [], none⟩) = 2 ∧
    runMigrations (createTables ⟨false, false, false, false, false, [], none⟩) =
      Except.ok (createTables ⟨false, false, false, false, false, [], none⟩) :=
  createTables_then_runMigrations ⟨false, false, false, false, false, [], none⟩
    (Or.inl rfl)

end WWT
